import Mathlib

/-!
Property access layer of `internal/ap/properties.go`.

A shallow embedding of the ActivityPub property accessors: the generic
primitives `getIRIs` / `appendIRIs`, the per-property `Get` / `Set` / `Append`
functions and the fatal wrapper `MustSet`; and of the landing page handler
`baseHandler` of `internal/web/base.go` (namespace `web`).

Conventions of the embedding

* A Go pointer `*url.URL` is an `Option URL` (`none` is the nil pointer); a
  possibly-nil interface value (a property container, an embedded type) is an
  `Option` of the container.
* A Go slice is a `List`; the nil slice and the empty slice are both `[]`.
* A Go function that mutates the node it is handed is a function returning
  the node after the call.  A container handle obtained from a node (the
  value a factory closure returns) is a `PropertyRef`: the operations that,
  in Go, mutate the attached container in place.
* A Go function that may panic returns `Except Panic _`.
-/

namespace ap

/-! ## Values of the host language -/

/-- A parsed identifier, the value a non-nil `*url.URL` points to. -/
abbrev URL := String

/-- The Go `time.Time` value, as an instant: seconds since the Unix epoch and
nanoseconds within the second. -/
structure Time where
  unixSec : Int
  nsec : Nat
  deriving DecidableEq, Repr

/-- The zero value `time.Time{}`: January 1, year 1, 00:00:00 UTC. -/
def Time.zero : Time := ⟨-62135596800, 0⟩

/-- A Go `error` value: its message and, for an error built with the `%w`
verb, the error it wraps. -/
inductive GoError where
  | new (msg : String)
  | wrap (msg : String) (inner : GoError)
  deriving DecidableEq, Repr

/-- The `Error()` method. -/
def GoError.Error : GoError → String
  | .new m => m
  | .wrap m _ => m

/-- The `Unwrap()` method (`errors.Unwrap`). -/
def GoError.Unwrap : GoError → Option GoError
  | .new _ => none
  | .wrap _ e => some e

/-- An error of `gtserror.NewfAt`: the formatted error together with the call
depth at which the caller is looked up. -/
structure CallerError where
  calldepth : Nat
  err : GoError
  deriving DecidableEq, Repr

deriving instance DecidableEq for Except

/-- The value a Go `panic` carries. -/
inductive Panic where
  | str (msg : String)
  | err (e : CallerError)
  | indexOutOfRange (idx len : Nat)
  deriving DecidableEq, Repr

/-! ## The vocabulary library, as far as this layer calls it -/

/-- Modelled from the spec: the JSON-LD-Id property container of the external
vocabulary library.  It holds at most one value, a URI-typed literal; the
discriminator tests that member against nil. -/
structure JSONLDIdProperty where
  xmlschemaAnyURIMember : Option URL
  deriving DecidableEq, Repr

/-- The constructor `streams.NewJSONLDIdProperty()`: an empty container. -/
def NewJSONLDIdProperty : JSONLDIdProperty := ⟨none⟩

def JSONLDIdProperty.IsXMLSchemaAnyURI (p : JSONLDIdProperty) : Bool :=
  p.xmlschemaAnyURIMember.isSome

def JSONLDIdProperty.Get (p : JSONLDIdProperty) : Option URL :=
  p.xmlschemaAnyURIMember

/-- The `SetIRI` method of the identity container: the range of the property
is the URI literal, so the bare IRI is stored as that member. -/
def JSONLDIdProperty.SetIRI (_p : JSONLDIdProperty) (v : Option URL) : JSONLDIdProperty :=
  ⟨v⟩

/-- Modelled from the spec: the capability contract `WithJSONLDId` (declared
outside this file's sources): get and set the identity container of a node. -/
class WithJSONLDId (W : Type) where
  GetJSONLDId : W → Option JSONLDIdProperty
  SetJSONLDId : W → Option JSONLDIdProperty → W

/-- An embedded document node (`vocab.Type`), as seen from this layer: its
concrete type name and its identity container. -/
structure VocabType where
  typeName : String
  jsonldId : Option JSONLDIdProperty
  deriving DecidableEq, Repr

instance : WithJSONLDId VocabType where
  GetJSONLDId t := t.jsonldId
  SetJSONLDId t p := { t with jsonldId := p }

/-- Modelled from the spec: a property entry of the external vocabulary
library, "a discriminated value": a bare IRI reference, an embedded node, a
typed literal, or nothing recognised.  A pointer member may be nil. -/
inductive Value where
  | empty
  | iri (u : Option URL)
  | type (t : VocabType)
  | anyURI (u : Option URL)
  | dateTime (t : Time)
  | boolean (b : Bool)
  | nonNegativeInteger (n : Int)
  deriving DecidableEq, Repr

namespace Value

/-- The `GetType` method: the embedded node, or nil. -/
def GetType : Value → Option VocabType
  | .type t => some t
  | _ => none

/-- The `IsIRI` method: the IRI member is not nil. -/
def IsIRI : Value → Bool
  | .iri u => u.isSome
  | _ => false

/-- The `GetIRI` method: the IRI member. -/
def GetIRI : Value → Option URL
  | .iri u => u
  | _ => none

/-- The `SetIRI` method: clear every member, store the IRI. -/
def SetIRI (_v : Value) (u : Option URL) : Value := .iri u

def IsXMLSchemaAnyURI : Value → Bool
  | .anyURI u => u.isSome
  | _ => false

def GetXMLSchemaAnyURI : Value → Option URL
  | .anyURI u => u
  | _ => none

def IsXMLSchemaDateTime : Value → Bool
  | .dateTime _ => true
  | _ => false

/-- The date-time member; the zero time when another member is set. -/
def GetXMLSchemaDateTime : Value → Time
  | .dateTime t => t
  | _ => Time.zero

def IsXMLSchemaBoolean : Value → Bool
  | .boolean _ => true
  | _ => false

def GetXMLSchemaBoolean : Value → Bool
  | .boolean b => b
  | _ => false

def IsXMLSchemaNonNegativeInteger : Value → Bool
  | .nonNegativeInteger _ => true
  | _ => false

def GetXMLSchemaNonNegativeInteger : Value → Int
  | .nonNegativeInteger n => n
  | _ => 0

/-- The `Set` method of a date-time property: clear every member, store the
timestamp. -/
def SetXMLSchemaDateTime (_v : Value) (t : Time) : Value := .dateTime t

/-- The `Set` method of a boolean property. -/
def SetXMLSchemaBoolean (_v : Value) (b : Bool) : Value := .boolean b

/-- The `Set` method of a non-negative-integer property. -/
def SetXMLSchemaNonNegativeInteger (_v : Value) (n : Int) : Value := .nonNegativeInteger n

end Value

/-- Modelled from the spec: the contract `TypeOrIRI` of a property entry
(declared outside this file's sources): resolve to an embedded node or none,
is-IRI, and the bare IRI or none. -/
class TypeOrIRI (T : Type) where
  GetType : T → Option VocabType
  IsIRI : T → Bool
  GetIRI : T → Option URL

instance : TypeOrIRI Value where
  GetType := Value.GetType
  IsIRI := Value.IsIRI
  GetIRI := Value.GetIRI

/-- Modelled from the spec: the contract `Property[T]` (declared outside this
file's sources), "an ordered, indexable container of property entries". -/
structure Property (T : Type) where
  properties : List T
  deriving DecidableEq, Repr

/-- The `Len` method. -/
def Property.Len {T : Type} (p : Property T) : Nat := p.properties.length

/-- The `At` method: the entry at an index; indexing past the end panics. -/
def Property.At {T : Type} (p : Property T) (i : Nat) : Except Panic T :=
  match p.properties[i]? with
  | some e => .ok e
  | none => .error (.indexOutOfRange i p.Len)

/-- The `AppendIRI` method: one more entry, a bare IRI reference. -/
def Property.AppendIRI (p : Property Value) (v : Option URL) : Property Value :=
  ⟨p.properties ++ [Value.iri v]⟩

/-- The `AppendXMLSchemaAnyURI` method: one more entry, a URI literal. -/
def Property.AppendXMLSchemaAnyURI (p : Property Value) (v : Option URL) : Property Value :=
  ⟨p.properties ++ [Value.anyURI v]⟩

/-- The `AppendXMLSchemaDateTime` method: one more entry, a timestamp. -/
def Property.AppendXMLSchemaDateTime (p : Property Value) (v : Time) : Property Value :=
  ⟨p.properties ++ [Value.dateTime v]⟩

/-! ## Identity -/

/-- GetJSONLDId returns the ID of the node, or nil. -/
def GetJSONLDId {W : Type} [WithJSONLDId W] (w : W) : Option URL :=
  match WithJSONLDId.GetJSONLDId w with
  | none => none
  | some idProp =>
    if !idProp.IsXMLSchemaAnyURI then none
    else idProp.Get

/-- SetJSONLDId sets the given URL to the JSONLD ID of the node. -/
def SetJSONLDId {W : Type} [WithJSONLDId W] (w : W) (id : Option URL) : W :=
  match WithJSONLDId.GetJSONLDId w with
  | none =>
    let idProp := NewJSONLDIdProperty
    let w := WithJSONLDId.SetJSONLDId w (some idProp)
    WithJSONLDId.SetJSONLDId w (some (idProp.SetIRI id))
  | some idProp =>
    WithJSONLDId.SetJSONLDId w (some (idProp.SetIRI id))

/-! ## Identity extraction -/

/-- One iteration of the loop of `getIRIs` on the entry `e`, `ids` being the
slice built so far. -/
def getIRIs.body {T : Type} [TypeOrIRI T] (e : T) (ids : List (Option URL)) :
    List (Option URL) :=
  let viaIRI : List (Option URL) :=
    if TypeOrIRI.IsIRI e then
      match TypeOrIRI.GetIRI e with
      | some id => ids ++ [some id]
      | none => ids
    else ids
  match TypeOrIRI.GetType e with
  | some t =>
    match GetJSONLDId t with
    | some id => ids ++ [some id]
    | none => viaIRI
  | none => viaIRI

/-- The function `getIRIs`: nil for an absent or empty container, otherwise
the loop `for i := 0; i < prop.Len(); i++` over `prop.At(i)`. -/
def getIRIs {T : Type} [TypeOrIRI T] (prop : Option (Property T)) :
    Except Panic (List (Option URL)) :=
  match prop with
  | none => .ok []
  | some prop =>
    if prop.Len = 0 then .ok []
    else
      (List.range prop.Len).foldlM
        (fun ids i =>
          match prop.At i with
          | .error p => .error p
          | .ok e => .ok (getIRIs.body e ids))
        []

/-! ## Document nodes -/

/-- A document node with every property this layer reads or writes: each
field is the property's container, or `none` when the property is unset.
Multi-valued properties hold a `Property Value`, single-valued ones a
`Value`. -/
structure Node where
  typeName : String
  jsonldId : Option JSONLDIdProperty
  ActivityStreamsTo : Option (Property Value)
  ActivityStreamsCc : Option (Property Value)
  ActivityStreamsBcc : Option (Property Value)
  ActivityStreamsUrl : Option (Property Value)
  ActivityStreamsActor : Option (Property Value)
  ActivityStreamsObject : Option (Property Value)
  ActivityStreamsAttributedTo : Option (Property Value)
  ActivityStreamsInReplyTo : Option (Property Value)
  ActivityStreamsInbox : Option Value
  ActivityStreamsOutbox : Option Value
  ActivityStreamsFollowing : Option Value
  ActivityStreamsFollowers : Option Value
  TootFeatured : Option Value
  ActivityStreamsPublished : Option Value
  ActivityStreamsEndTime : Option Value
  ActivityStreamsClosed : Option (Property Value)
  TootVotersCount : Option Value
  TootDiscoverable : Option Value
  deriving DecidableEq, Repr

/-- A freshly constructed node: no property set. -/
def Node.fresh (typeName : String) : Node :=
  { typeName := typeName, jsonldId := none, ActivityStreamsTo := none, ActivityStreamsCc := none, ActivityStreamsBcc := none,
    ActivityStreamsUrl := none, ActivityStreamsActor := none, ActivityStreamsObject := none, ActivityStreamsAttributedTo := none,
    ActivityStreamsInReplyTo := none, ActivityStreamsInbox := none, ActivityStreamsOutbox := none, ActivityStreamsFollowing := none,
    ActivityStreamsFollowers := none, TootFeatured := none, ActivityStreamsPublished := none, ActivityStreamsEndTime := none,
    ActivityStreamsClosed := none, TootVotersCount := none, TootDiscoverable := none }

instance : WithJSONLDId Node where
  GetJSONLDId n := n.jsonldId
  SetJSONLDId n p := { n with jsonldId := p }

namespace Node

def GetActivityStreamsTo (n : Node) : Option (Property Value) := n.ActivityStreamsTo
def SetActivityStreamsTo (n : Node) (p : Option (Property Value)) : Node := { n with ActivityStreamsTo := p }
def GetActivityStreamsCc (n : Node) : Option (Property Value) := n.ActivityStreamsCc
def SetActivityStreamsCc (n : Node) (p : Option (Property Value)) : Node := { n with ActivityStreamsCc := p }
def GetActivityStreamsBcc (n : Node) : Option (Property Value) := n.ActivityStreamsBcc
def SetActivityStreamsBcc (n : Node) (p : Option (Property Value)) : Node := { n with ActivityStreamsBcc := p }
def GetActivityStreamsUrl (n : Node) : Option (Property Value) := n.ActivityStreamsUrl
def SetActivityStreamsUrl (n : Node) (p : Option (Property Value)) : Node := { n with ActivityStreamsUrl := p }
def GetActivityStreamsActor (n : Node) : Option (Property Value) := n.ActivityStreamsActor
def SetActivityStreamsActor (n : Node) (p : Option (Property Value)) : Node :=
  { n with ActivityStreamsActor := p }
def GetActivityStreamsObject (n : Node) : Option (Property Value) := n.ActivityStreamsObject
def SetActivityStreamsObject (n : Node) (p : Option (Property Value)) : Node :=
  { n with ActivityStreamsObject := p }
def GetActivityStreamsAttributedTo (n : Node) : Option (Property Value) := n.ActivityStreamsAttributedTo
def SetActivityStreamsAttributedTo (n : Node) (p : Option (Property Value)) : Node :=
  { n with ActivityStreamsAttributedTo := p }
def GetActivityStreamsInReplyTo (n : Node) : Option (Property Value) := n.ActivityStreamsInReplyTo
def SetActivityStreamsInReplyTo (n : Node) (p : Option (Property Value)) : Node :=
  { n with ActivityStreamsInReplyTo := p }
def GetActivityStreamsInbox (n : Node) : Option Value := n.ActivityStreamsInbox
def SetActivityStreamsInbox (n : Node) (p : Option Value) : Node := { n with ActivityStreamsInbox := p }
def GetActivityStreamsOutbox (n : Node) : Option Value := n.ActivityStreamsOutbox
def SetActivityStreamsOutbox (n : Node) (p : Option Value) : Node := { n with ActivityStreamsOutbox := p }
def GetActivityStreamsFollowing (n : Node) : Option Value := n.ActivityStreamsFollowing
def SetActivityStreamsFollowing (n : Node) (p : Option Value) : Node :=
  { n with ActivityStreamsFollowing := p }
def GetActivityStreamsFollowers (n : Node) : Option Value := n.ActivityStreamsFollowers
def SetActivityStreamsFollowers (n : Node) (p : Option Value) : Node :=
  { n with ActivityStreamsFollowers := p }
def GetTootFeatured (n : Node) : Option Value := n.TootFeatured
def SetTootFeatured (n : Node) (p : Option Value) : Node := { n with TootFeatured := p }
def GetActivityStreamsPublished (n : Node) : Option Value := n.ActivityStreamsPublished
def SetActivityStreamsPublished (n : Node) (p : Option Value) : Node :=
  { n with ActivityStreamsPublished := p }
def GetActivityStreamsEndTime (n : Node) : Option Value := n.ActivityStreamsEndTime
def SetActivityStreamsEndTime (n : Node) (p : Option Value) : Node := { n with ActivityStreamsEndTime := p }
def GetActivityStreamsClosed (n : Node) : Option (Property Value) := n.ActivityStreamsClosed
def SetActivityStreamsClosed (n : Node) (p : Option (Property Value)) : Node :=
  { n with ActivityStreamsClosed := p }
def GetTootVotersCount (n : Node) : Option Value := n.TootVotersCount
def SetTootVotersCount (n : Node) (p : Option Value) : Node := { n with TootVotersCount := p }
def GetTootDiscoverable (n : Node) : Option Value := n.TootDiscoverable
def SetTootDiscoverable (n : Node) (p : Option Value) : Node := { n with TootDiscoverable := p }

end Node

/-- The constructors `streams.New…Property()` of the multi-valued
properties: a container with no entry. -/
def NewProperty : Property Value := ⟨[]⟩

/-- The constructors `streams.New…Property()` of the single-valued
properties: a container holding nothing. -/
def NewFunctionalProperty : Value := Value.empty

/-! ## Identity append -/

/-- A non-nil `Property[T]` handed out by a factory closure, as a handle on
the state `σ` the container lives in: `AppendIRI` is the method that, in Go,
appends to the attached container in place. -/
structure PropertyRef (σ : Type) where
  AppendIRI : Option URL → σ → σ

/-- The function `appendIRIs`.  The factory `getProp` may change the state (it
creates and attaches the container when absent) and yields the container, or
nil.  The result is the outcome of the call and the state after it. -/
def appendIRIs {σ : Type} (getProp : σ → Option (PropertyRef σ) × σ)
    (iri : List (Option URL)) (s : σ) : Except Panic Unit × σ :=
  if iri.length = 0 then (.ok (), s)
  else
    match getProp s with
    | (none, s) => (.error (.str "prop not set"), s)
    | (some prop, s) => (.ok (), iri.foldl (fun s u => prop.AppendIRI u s) s)

/-- The handle on the container stored under a multi-valued property of a
node, given the node's accessors of that property. -/
def Node.propertyRef (get : Node → Option (Property Value))
    (set : Node → Option (Property Value) → Node) : PropertyRef Node :=
  ⟨fun u n => set n ((get n).map (fun p => p.AppendIRI u))⟩

/-! ## Reference-valued properties -/

/-- GetTo returns the IRIs contained in the To property of the node.  (The
source comment adds "Panics on entries with missing ID"; the body is the call
of `getIRIs` alone.) -/
def GetTo (w : Node) : Except Panic (List (Option URL)) :=
  let toProp := w.GetActivityStreamsTo
  getIRIs toProp

/-- AppendTo appends the given IRIs to the To property of the node. -/
def AppendTo (w : Node) (to_ : List (Option URL)) : Except Panic Unit × Node :=
  appendIRIs (fun w =>
    match w.GetActivityStreamsTo with
    | none =>
      let toProp := NewProperty
      let w := w.SetActivityStreamsTo (some toProp)
      (some (Node.propertyRef Node.GetActivityStreamsTo Node.SetActivityStreamsTo), w)
    | some _ =>
      (some (Node.propertyRef Node.GetActivityStreamsTo Node.SetActivityStreamsTo), w))
    to_ w

/-- GetCc returns the IRIs contained in the Cc property of the node.  (The
source comment adds "Panics on entries with missing ID"; the body is the call
of `getIRIs` alone.) -/
def GetCc (w : Node) : Except Panic (List (Option URL)) :=
  let ccProp := w.GetActivityStreamsCc
  getIRIs ccProp

/-- AppendCc appends the given IRIs to the Cc property of the node. -/
def AppendCc (w : Node) (cc : List (Option URL)) : Except Panic Unit × Node :=
  appendIRIs (fun w =>
    match w.GetActivityStreamsCc with
    | none =>
      let ccProp := NewProperty
      let w := w.SetActivityStreamsCc (some ccProp)
      (some (Node.propertyRef Node.GetActivityStreamsCc Node.SetActivityStreamsCc), w)
    | some _ =>
      (some (Node.propertyRef Node.GetActivityStreamsCc Node.SetActivityStreamsCc), w))
    cc w

/-- GetBcc returns the IRIs contained in the Bcc property of the node.  (The
source comment adds "Panics on entries with missing ID"; the body is the call
of `getIRIs` alone.) -/
def GetBcc (w : Node) : Except Panic (List (Option URL)) :=
  let bccProp := w.GetActivityStreamsBcc
  getIRIs bccProp

/-- AppendBcc appends the given IRIs to the Bcc property of the node. -/
def AppendBcc (w : Node) (bcc : List (Option URL)) : Except Panic Unit × Node :=
  appendIRIs (fun w =>
    match w.GetActivityStreamsBcc with
    | none =>
      let bccProp := NewProperty
      let w := w.SetActivityStreamsBcc (some bccProp)
      (some (Node.propertyRef Node.GetActivityStreamsBcc Node.SetActivityStreamsBcc), w)
    | some _ =>
      (some (Node.propertyRef Node.GetActivityStreamsBcc Node.SetActivityStreamsBcc), w))
    bcc w

/-- GetURL returns the IRIs contained in the URL property of the node. -/
def GetURL (w : Node) : Except Panic (List (Option URL)) :=
  match w.GetActivityStreamsUrl with
  | none => .ok []
  | some urlProp =>
    if urlProp.Len = 0 then .ok []
    else
      (List.range urlProp.Len).foldlM
        (fun urls i =>
          match urlProp.At i with
          | .error p => .error p
          | .ok e =>
            if e.IsXMLSchemaAnyURI then .ok (urls ++ [e.GetXMLSchemaAnyURI])
            else .ok urls)
        []

/-- AppendURL appends the given URLs to the URL property of the node. -/
def AppendURL (w : Node) (url : List (Option URL)) : Node :=
  if url.length = 0 then w
  else
    let w :=
      match w.GetActivityStreamsUrl with
      | none => w.SetActivityStreamsUrl (some NewProperty)
      | some _ => w
    url.foldl
      (fun w u =>
        w.SetActivityStreamsUrl
          (w.GetActivityStreamsUrl.map (fun urlProp => urlProp.AppendXMLSchemaAnyURI u)))
      w

/-- GetActorIRIs returns the IRIs contained in the Actor property of the node. -/
def GetActorIRIs (w : Node) : Except Panic (List (Option URL)) :=
  let actorProp := w.GetActivityStreamsActor
  getIRIs actorProp

/-- AppendActorIRIs appends the given IRIs to the Actor property of the node. -/
def AppendActorIRIs (w : Node) (actor : List (Option URL)) : Except Panic Unit × Node :=
  appendIRIs (fun w =>
    match w.GetActivityStreamsActor with
    | none =>
      let actorProp := NewProperty
      let w := w.SetActivityStreamsActor (some actorProp)
      (some (Node.propertyRef Node.GetActivityStreamsActor Node.SetActivityStreamsActor), w)
    | some _ =>
      (some (Node.propertyRef Node.GetActivityStreamsActor Node.SetActivityStreamsActor), w))
    actor w

/-- GetObjectIRIs returns the IRIs contained in the Object property of the
node. -/
def GetObjectIRIs (w : Node) : Except Panic (List (Option URL)) :=
  let objectProp := w.GetActivityStreamsObject
  getIRIs objectProp

/-- AppendObjectIRIs, as the source declares it: the function takes the node
and no identifier, and hands `appendIRIs` the factory alone. -/
def AppendObjectIRIs (w : Node) : Except Panic Unit × Node :=
  appendIRIs (fun w =>
    match w.GetActivityStreamsObject with
    | none =>
      let objectProp := NewProperty
      let w := w.SetActivityStreamsObject (some objectProp)
      (some (Node.propertyRef Node.GetActivityStreamsObject Node.SetActivityStreamsObject), w)
    | some _ =>
      (some (Node.propertyRef Node.GetActivityStreamsObject Node.SetActivityStreamsObject), w))
    [] w

/-- GetAttributedTo returns the IRIs contained in the AttributedTo property of
the node. -/
def GetAttributedTo (w : Node) : Except Panic (List (Option URL)) :=
  let attribProp := w.GetActivityStreamsAttributedTo
  getIRIs attribProp

/-- AppendAttributedTo appends the given IRIs to the AttributedTo property of
the node. -/
def AppendAttributedTo (w : Node) (attribTo : List (Option URL)) : Except Panic Unit × Node :=
  appendIRIs (fun w =>
    match w.GetActivityStreamsAttributedTo with
    | none =>
      let attribProp := NewProperty
      let w := w.SetActivityStreamsAttributedTo (some attribProp)
      (some (Node.propertyRef Node.GetActivityStreamsAttributedTo Node.SetActivityStreamsAttributedTo), w)
    | some _ =>
      (some (Node.propertyRef Node.GetActivityStreamsAttributedTo Node.SetActivityStreamsAttributedTo), w))
    attribTo w

/-- GetInReplyTo returns the IRIs contained in the InReplyTo property of the
node. -/
def GetInReplyTo (w : Node) : Except Panic (List (Option URL)) :=
  let replyProp := w.GetActivityStreamsInReplyTo
  getIRIs replyProp

/-- AppendInReplyTo appends the given IRIs to the InReplyTo property of the
node. -/
def AppendInReplyTo (w : Node) (replyTo : List (Option URL)) : Except Panic Unit × Node :=
  appendIRIs (fun w =>
    match w.GetActivityStreamsInReplyTo with
    | none =>
      let replyProp := NewProperty
      let w := w.SetActivityStreamsInReplyTo (some replyProp)
      (some (Node.propertyRef Node.GetActivityStreamsInReplyTo Node.SetActivityStreamsInReplyTo), w)
    | some _ =>
      (some (Node.propertyRef Node.GetActivityStreamsInReplyTo Node.SetActivityStreamsInReplyTo), w))
    replyTo w

/-! ## IRI-only single-valued properties -/

/-- GetInbox returns the IRI contained in the Inbox property of the node. -/
def GetInbox (w : Node) : Option URL :=
  match w.GetActivityStreamsInbox with
  | none => none
  | some inboxProp =>
    if !inboxProp.IsIRI then none
    else inboxProp.GetIRI

/-- SetInbox sets the given IRI on the Inbox property of the node. -/
def SetInbox (w : Node) (inbox : Option URL) : Node :=
  match w.GetActivityStreamsInbox with
  | none =>
    let inboxProp := NewFunctionalProperty
    let w := w.SetActivityStreamsInbox (some inboxProp)
    w.SetActivityStreamsInbox (some (inboxProp.SetIRI inbox))
  | some inboxProp =>
    w.SetActivityStreamsInbox (some (inboxProp.SetIRI inbox))

/-- GetOutbox returns the IRI contained in the Outbox property of the node. -/
def GetOutbox (w : Node) : Option URL :=
  match w.GetActivityStreamsOutbox with
  | none => none
  | some outboxProp =>
    if !outboxProp.IsIRI then none
    else outboxProp.GetIRI

/-- SetOutbox sets the given IRI on the Outbox property of the node. -/
def SetOutbox (w : Node) (outbox : Option URL) : Node :=
  match w.GetActivityStreamsOutbox with
  | none =>
    let outboxProp := NewFunctionalProperty
    let w := w.SetActivityStreamsOutbox (some outboxProp)
    w.SetActivityStreamsOutbox (some (outboxProp.SetIRI outbox))
  | some outboxProp =>
    w.SetActivityStreamsOutbox (some (outboxProp.SetIRI outbox))

/-- GetFollowing returns the IRI contained in the Following property of the node. -/
def GetFollowing (w : Node) : Option URL :=
  match w.GetActivityStreamsFollowing with
  | none => none
  | some followProp =>
    if !followProp.IsIRI then none
    else followProp.GetIRI

/-- SetFollowing sets the given IRI on the Following property of the node. -/
def SetFollowing (w : Node) (following : Option URL) : Node :=
  match w.GetActivityStreamsFollowing with
  | none =>
    let followProp := NewFunctionalProperty
    let w := w.SetActivityStreamsFollowing (some followProp)
    w.SetActivityStreamsFollowing (some (followProp.SetIRI following))
  | some followProp =>
    w.SetActivityStreamsFollowing (some (followProp.SetIRI following))

/-- GetFollowers returns the IRI contained in the Followers property of the node. -/
def GetFollowers (w : Node) : Option URL :=
  match w.GetActivityStreamsFollowers with
  | none => none
  | some followProp =>
    if !followProp.IsIRI then none
    else followProp.GetIRI

/-- SetFollowers sets the given IRI on the Followers property of the node. -/
def SetFollowers (w : Node) (followers : Option URL) : Node :=
  match w.GetActivityStreamsFollowers with
  | none =>
    let followProp := NewFunctionalProperty
    let w := w.SetActivityStreamsFollowers (some followProp)
    w.SetActivityStreamsFollowers (some (followProp.SetIRI followers))
  | some followProp =>
    w.SetActivityStreamsFollowers (some (followProp.SetIRI followers))

/-- GetFeatured returns the IRI contained in the Featured property of the node. -/
def GetFeatured (w : Node) : Option URL :=
  match w.GetTootFeatured with
  | none => none
  | some featuredProp =>
    if !featuredProp.IsIRI then none
    else featuredProp.GetIRI

/-- SetFeatured sets the given IRI on the Featured property of the node. -/
def SetFeatured (w : Node) (featured : Option URL) : Node :=
  match w.GetTootFeatured with
  | none =>
    let featuredProp := NewFunctionalProperty
    let w := w.SetTootFeatured (some featuredProp)
    w.SetTootFeatured (some (featuredProp.SetIRI featured))
  | some featuredProp =>
    w.SetTootFeatured (some (featuredProp.SetIRI featured))

/-! ## Scalar properties -/

/-- GetPublished returns the time contained in the Published property of the node. -/
def GetPublished (w : Node) : Time :=
  match w.GetActivityStreamsPublished with
  | none => Time.zero
  | some publishProp =>
    if !publishProp.IsXMLSchemaDateTime then Time.zero
    else publishProp.GetXMLSchemaDateTime

/-- SetPublished sets the given time on the Published property of the node. -/
def SetPublished (w : Node) (published : Time) : Node :=
  match w.GetActivityStreamsPublished with
  | none =>
    let publishProp := NewFunctionalProperty
    let w := w.SetActivityStreamsPublished (some publishProp)
    w.SetActivityStreamsPublished (some (publishProp.SetXMLSchemaDateTime published))
  | some publishProp =>
    w.SetActivityStreamsPublished (some (publishProp.SetXMLSchemaDateTime published))

/-- GetEndTime returns the time contained in the EndTime property of the node. -/
def GetEndTime (w : Node) : Time :=
  match w.GetActivityStreamsEndTime with
  | none => Time.zero
  | some endTimeProp =>
    if !endTimeProp.IsXMLSchemaDateTime then Time.zero
    else endTimeProp.GetXMLSchemaDateTime

/-- SetEndTime sets the given time on the EndTime property of the node. -/
def SetEndTime (w : Node) (end_ : Time) : Node :=
  match w.GetActivityStreamsEndTime with
  | none =>
    let endTimeProp := NewFunctionalProperty
    let w := w.SetActivityStreamsEndTime (some endTimeProp)
    w.SetActivityStreamsEndTime (some (endTimeProp.SetXMLSchemaDateTime end_))
  | some endTimeProp =>
    w.SetActivityStreamsEndTime (some (endTimeProp.SetXMLSchemaDateTime end_))

/-- GetClosed returns the times contained in the Closed property of the
node. -/
def GetClosed (w : Node) : Except Panic (List Time) :=
  match w.GetActivityStreamsClosed with
  | none => .ok []
  | some closedProp =>
    if closedProp.Len = 0 then .ok []
    else
      (List.range closedProp.Len).foldlM
        (fun closed i =>
          match closedProp.At i with
          | .error p => .error p
          | .ok e =>
            if e.IsXMLSchemaDateTime then .ok (closed ++ [e.GetXMLSchemaDateTime])
            else .ok closed)
        []

/-- AppendClosed appends the given times to the Closed property of the
node. -/
def AppendClosed (w : Node) (closed : List Time) : Node :=
  if closed.length = 0 then w
  else
    let w :=
      match w.GetActivityStreamsClosed with
      | none => w.SetActivityStreamsClosed (some NewProperty)
      | some _ => w
    closed.foldl
      (fun w t =>
        w.SetActivityStreamsClosed
          (w.GetActivityStreamsClosed.map (fun closedProp => closedProp.AppendXMLSchemaDateTime t)))
      w

/-- GetVotersCount returns the integer contained in the VotersCount property of the node. -/
def GetVotersCount (w : Node) : Int :=
  match w.GetTootVotersCount with
  | none => 0
  | some votersProp =>
    if !votersProp.IsXMLSchemaNonNegativeInteger then 0
    else votersProp.GetXMLSchemaNonNegativeInteger

/-- SetVotersCount sets the given integer on the VotersCount property of the node. -/
def SetVotersCount (w : Node) (count : Int) : Node :=
  match w.GetTootVotersCount with
  | none =>
    let votersProp := NewFunctionalProperty
    let w := w.SetTootVotersCount (some votersProp)
    w.SetTootVotersCount (some (votersProp.SetXMLSchemaNonNegativeInteger count))
  | some votersProp =>
    w.SetTootVotersCount (some (votersProp.SetXMLSchemaNonNegativeInteger count))

/-- GetDiscoverable returns the boolean contained in the Discoverable property of the node. -/
def GetDiscoverable (w : Node) : Bool :=
  match w.GetTootDiscoverable with
  | none => false
  | some discoverProp =>
    if !discoverProp.IsXMLSchemaBoolean then false
    else discoverProp.GetXMLSchemaBoolean

/-- SetDiscoverable sets the given boolean on the Discoverable property of the node. -/
def SetDiscoverable (w : Node) (discoverable : Bool) : Node :=
  match w.GetTootDiscoverable with
  | none =>
    let discoverProp := NewFunctionalProperty
    let w := w.SetTootDiscoverable (some discoverProp)
    w.SetTootDiscoverable (some (discoverProp.SetXMLSchemaBoolean discoverable))
  | some discoverProp =>
    w.SetTootDiscoverable (some (discoverProp.SetXMLSchemaBoolean discoverable))

/-! ## Formatting and fatal errors -/

/-- The dynamic type of an error value, as the verb `%T` prints it. -/
def GoError.typeName : GoError → String
  | .new _ => "*errors.errorString"
  | .wrap _ _ => "*fmt.wrapError"

/-- An operand of a formatting call (a Go `any`): a value that is no error,
known by the name of its dynamic type, or an error. -/
inductive FmtArg where
  | any (typeName : String)
  | error (e : GoError)
  deriving DecidableEq, Repr

/-- What one verb prints for one operand: `%T` the dynamic type, `%w` (and
`%v`, `%s`) the message of an error. -/
def fmt.verb (v : Char) (a : FmtArg) : List Char :=
  if v = 'T' then
    match a with
    | .any t => t.data
    | .error e => e.typeName.data
  else
    match a with
    | .any t => '%' :: '!' :: v :: '(' :: (t.data ++ [')'])
    | .error e => if v = 'w' ∨ v = 'v' ∨ v = 's' then e.Error.data
                  else '%' :: '!' :: v :: '(' :: (e.typeName.data ++ [')'])

/-- The text `fmt.Sprintf` produces, for the verbs above: every other
character is copied, `%%` is a percent sign, a verb without operand prints
`%!v(MISSING)`. -/
def fmt.format : List Char → List FmtArg → List Char
  | [], _ => []
  | [c], _ => [c]
  | c :: v :: rest, args =>
    if c = '%' then
      if v = '%' then '%' :: fmt.format rest args
      else
        match args with
        | [] => '%' :: '!' :: v :: ("(MISSING)".data ++ fmt.format rest [])
        | a :: args => fmt.verb v a ++ fmt.format rest args
    else c :: fmt.format (v :: rest) args

/-- The operand of the first `%w` verb of a format, when it is an error: the
error `fmt.Errorf` wraps. -/
def fmt.wrapped : List Char → List FmtArg → Option GoError
  | [], _ => none
  | [_], _ => none
  | c :: v :: rest, args =>
    if c = '%' then
      if v = '%' then fmt.wrapped rest args
      else
        match args with
        | [] => none
        | a :: args =>
          if v = 'w' then
            match a with
            | .error e => some e
            | .any _ => fmt.wrapped rest args
          else fmt.wrapped rest args
    else fmt.wrapped (v :: rest) args

/-- The function `fmt.Errorf`: the formatted message, wrapping the operand of
`%w`. -/
def fmt.Errorf (format : String) (args : List FmtArg) : GoError :=
  let msg := String.mk (fmt.format format.data args)
  match fmt.wrapped format.data args with
  | some e => .wrap msg e
  | none => .new msg

/-- Modelled from the spec: `gtserror.NewfAt` (declared outside this file's
sources) builds the formatted error for the caller at the given call depth,
"a diagnostic identifying the concrete node type and the originating call
site". -/
def gtserror.NewfAt (calldepth : Nat) (msg : String) (args : List FmtArg) : CallerError :=
  ⟨calldepth, fmt.Errorf msg args⟩

/-- panicfAt panics with a call to gtserror.NewfAt() with given args (+1 to
calldepth); the value is the panic raised. -/
def panicfAt (calldepth : Nat) (msg : String) (args : List FmtArg) : Panic :=
  .err (gtserror.NewfAt (calldepth + 1) msg args)

/-- MustSet performs the given setter function, panicking on error.  The
setter runs on a state `σ` (whatever it mutates); `typeOf` gives the dynamic
type of the node, which `%T` prints. -/
def MustSet {W T σ : Type} (typeOf : W → String)
    (fn : W → T → σ → Option GoError × σ) (w : W) (value : T) (s : σ) :
    Except Panic Unit × σ :=
  match fn w value s with
  | (some err, s) =>
    (.error (panicfAt 3 "error setting property on %T: %w" [.any (typeOf w), .error err]), s)
  | (none, s) => (.ok (), s)

/-- SetJSONLDIdStr sets the given string to the JSONLD ID of the node and
returns the error of parsing it, if any.  `parse` is `url.Parse`. -/
def SetJSONLDIdStr {W : Type} [WithJSONLDId W] (parse : String → Except GoError URL)
    (w : W) (id : String) : Option GoError × W :=
  match parse id with
  | .error err => (some (fmt.Errorf "error parsing id url: %w" [.error err]), w)
  | .ok u => (none, SetJSONLDId w (some u))

/-- Instrumentation: a setter that also counts its invocations, in the first
component of the state. -/
def counted {W T σ : Type} (fn : W → T → σ → Option GoError × σ) :
    W → T → Nat × σ → Option GoError × (Nat × σ) :=
  fun w v s => ((fn w v s.2).1, (s.1 + 1, (fn w v s.2).2))

/-- Instrumentation: a container factory that also counts its invocations, in
the first component of the state. -/
def countedFactory {σ : Type} (getProp : σ → Option (PropertyRef σ) × σ) :
    Nat × σ → Option (PropertyRef (Nat × σ)) × (Nat × σ) :=
  fun s =>
    ((getProp s.2).1.map (fun r => ⟨fun u t => (t.1, r.AppendIRI u t.2)⟩),
      (s.1 + 1, (getProp s.2).2))


/-- A fragment of `url.Parse`, enough for the scenarios: a string holding an
ASCII control character is rejected (the check `url.Parse` makes first), any
other string is accepted as it stands. -/
def parseRejectingControl (rawURL : String) : Except GoError URL :=
  if rawURL.data.any (fun c => decide (c.val < 0x20) || decide (c.val = 0x7f)) then
    .error (.new "net/url: invalid control character in URL")
  else .ok rawURL

/-- The setter `SetJSONLDIdStr` in the shape `MustSet` takes: the node is the
state, the first argument stands for the reference to it. -/
def setIdStrOn (parse : String → Except GoError URL) :
    Unit → String → Node → Option GoError × Node :=
  fun _ id n => ((SetJSONLDIdStr parse n id).1, (SetJSONLDIdStr parse n id).2)

/-! ## The specification's reading of the primitives -/

/-- The per-entry rule of identity extraction, in the words of the
specification: an embedded node that carries an identity yields that
identity; otherwise a bare IRI reference yields that IRI; otherwise the entry
yields nothing. -/
def entryIdentifier {T : Type} [TypeOrIRI T] (e : T) : Option URL :=
  match (TypeOrIRI.GetType e).bind (fun t => GetJSONLDId t) with
  | some u => some u
  | none => if TypeOrIRI.IsIRI e then TypeOrIRI.GetIRI e else none

/-- The entries of a possibly absent container. -/
def entriesOf {T : Type} (c : Option (Property T)) : List T :=
  match c with
  | none => []
  | some p => p.properties

/-- The contract of an IRI-only single-valued property, in the words of the
specification, for the container accessor `get` and the functions `Get` /
`Set` of the property: `Get` returns the identifier exactly when the
container is present and in bare-IRI form holding it, and absent when the
property is unset or holds an embedded object; `Get` after `Set` returns the
identifier set, whatever the node held. -/
def IRIOnlyContract (get : Node → Option Value) (Get : Node → Option URL)
    (Set : Node → Option URL → Node) : Prop :=
  (∀ (n : Node) (u : URL), Get n = some u ↔ get n = some (Value.iri (some u)))
  ∧ (∀ n : Node, get n = none → Get n = none)
  ∧ (∀ (n : Node) (t : VocabType), get n = some (Value.type t) → Get n = none)
  ∧ (∀ (n : Node) (u : Option URL), Get (Set n u) = u)

/-- The per-entry rule of `GetURL`, in the words of the specification: an
entry that is a URI literal yields that URI, every other entry is omitted. -/
def urlLiteral : Value → Option (Option URL)
  | .anyURI (some u) => some (some u)
  | _ => none

/-- The per-entry rule of `GetClosed`, in the words of the specification: an
entry that is a timestamp literal yields that timestamp, every other entry is
omitted. -/
def closedLiteral : Value → Option Time
  | .dateTime t => some t
  | _ => none

/-- One step of a loop that collects what a rule keeps: the result so far,
extended by what the rule yields for the entry. -/
def keepLiteral {β : Type} (rule : Value → Option β) (acc : List β) (e : Value) : List β :=
  match rule e with
  | some b => acc ++ [b]
  | none => acc

/-! ## Vocabulary for the frame of the mutations -/

/-- The properties of the layer, by name. -/
inductive PropName where
  | JSONLDId
  | To
  | Cc
  | Bcc
  | URL
  | Actor
  | Object
  | AttributedTo
  | InReplyTo
  | Inbox
  | Outbox
  | Following
  | Followers
  | Featured
  | Published
  | EndTime
  | Closed
  | VotersCount
  | Discoverable
  deriving DecidableEq, Repr

/-- The node with the container of one property taken off. -/
def Node.clear (n : Node) : PropName → Node
  | .JSONLDId => { n with jsonldId := none }
  | .To => { n with ActivityStreamsTo := none }
  | .Cc => { n with ActivityStreamsCc := none }
  | .Bcc => { n with ActivityStreamsBcc := none }
  | .URL => { n with ActivityStreamsUrl := none }
  | .Actor => { n with ActivityStreamsActor := none }
  | .Object => { n with ActivityStreamsObject := none }
  | .AttributedTo => { n with ActivityStreamsAttributedTo := none }
  | .InReplyTo => { n with ActivityStreamsInReplyTo := none }
  | .Inbox => { n with ActivityStreamsInbox := none }
  | .Outbox => { n with ActivityStreamsOutbox := none }
  | .Following => { n with ActivityStreamsFollowing := none }
  | .Followers => { n with ActivityStreamsFollowers := none }
  | .Featured => { n with TootFeatured := none }
  | .Published => { n with ActivityStreamsPublished := none }
  | .EndTime => { n with ActivityStreamsEndTime := none }
  | .Closed => { n with ActivityStreamsClosed := none }
  | .VotersCount => { n with TootVotersCount := none }
  | .Discoverable => { n with TootDiscoverable := none }

/-- What a getter of the layer returns. -/
inductive Reading where
  | ids (r : Except Panic (List (Option URL)))
  | id (u : Option URL)
  | time (t : Time)
  | times (r : Except Panic (List Time))
  | count (k : Int)
  | flag (b : Bool)

/-- The value the getter of a property returns on a node. -/
def PropName.read : PropName → Node → Reading
  | .JSONLDId, n => .id (GetJSONLDId n)
  | .To, n => .ids (GetTo n)
  | .Cc, n => .ids (GetCc n)
  | .Bcc, n => .ids (GetBcc n)
  | .URL, n => .ids (GetURL n)
  | .Actor, n => .ids (GetActorIRIs n)
  | .Object, n => .ids (GetObjectIRIs n)
  | .AttributedTo, n => .ids (GetAttributedTo n)
  | .InReplyTo, n => .ids (GetInReplyTo n)
  | .Inbox, n => .id (GetInbox n)
  | .Outbox, n => .id (GetOutbox n)
  | .Following, n => .id (GetFollowing n)
  | .Followers, n => .id (GetFollowers n)
  | .Featured, n => .id (GetFeatured n)
  | .Published, n => .time (GetPublished n)
  | .EndTime, n => .time (GetEndTime n)
  | .Closed, n => .times (GetClosed n)
  | .VotersCount, n => .count (GetVotersCount n)
  | .Discoverable, n => .flag (GetDiscoverable n)

/-- A call of a setter or appender of the layer, with its arguments. -/
inductive Mutation where
  | SetJSONLDId (id : Option URL)
  | SetJSONLDIdStr (parse : String → Except GoError URL) (id : String)
  | AppendTo (iri : List (Option URL))
  | AppendCc (iri : List (Option URL))
  | AppendBcc (iri : List (Option URL))
  | AppendURL (url : List (Option URL))
  | AppendActorIRIs (iri : List (Option URL))
  | AppendObjectIRIs
  | AppendAttributedTo (iri : List (Option URL))
  | AppendInReplyTo (iri : List (Option URL))
  | SetInbox (iri : Option URL)
  | SetOutbox (iri : Option URL)
  | SetFollowing (iri : Option URL)
  | SetFollowers (iri : Option URL)
  | SetFeatured (iri : Option URL)
  | SetPublished (t : Time)
  | SetEndTime (t : Time)
  | AppendClosed (closed : List Time)
  | SetVotersCount (count : Int)
  | SetDiscoverable (b : Bool)

/-- The property a setter or appender is the mutation of. -/
def Mutation.prop : Mutation → PropName
  | .SetJSONLDId .. => .JSONLDId
  | .SetJSONLDIdStr .. => .JSONLDId
  | .AppendTo .. => .To
  | .AppendCc .. => .Cc
  | .AppendBcc .. => .Bcc
  | .AppendURL .. => .URL
  | .AppendActorIRIs .. => .Actor
  | .AppendObjectIRIs => .Object
  | .AppendAttributedTo .. => .AttributedTo
  | .AppendInReplyTo .. => .InReplyTo
  | .SetInbox .. => .Inbox
  | .SetOutbox .. => .Outbox
  | .SetFollowing .. => .Following
  | .SetFollowers .. => .Followers
  | .SetFeatured .. => .Featured
  | .SetPublished .. => .Published
  | .SetEndTime .. => .EndTime
  | .AppendClosed .. => .Closed
  | .SetVotersCount .. => .VotersCount
  | .SetDiscoverable .. => .Discoverable

/-- The node after a setter or appender has run on it. -/
def Mutation.apply : Mutation → Node → Node
  | .SetJSONLDId id, n => ap.SetJSONLDId n id
  | .SetJSONLDIdStr parse id, n => (ap.SetJSONLDIdStr parse n id).2
  | .AppendTo iri, n => (ap.AppendTo n iri).2
  | .AppendCc iri, n => (ap.AppendCc n iri).2
  | .AppendBcc iri, n => (ap.AppendBcc n iri).2
  | .AppendURL url, n => ap.AppendURL n url
  | .AppendActorIRIs iri, n => (ap.AppendActorIRIs n iri).2
  | .AppendObjectIRIs, n => (ap.AppendObjectIRIs n).2
  | .AppendAttributedTo iri, n => (ap.AppendAttributedTo n iri).2
  | .AppendInReplyTo iri, n => (ap.AppendInReplyTo n iri).2
  | .SetInbox iri, n => ap.SetInbox n iri
  | .SetOutbox iri, n => ap.SetOutbox n iri
  | .SetFollowing iri, n => ap.SetFollowing n iri
  | .SetFollowers iri, n => ap.SetFollowers n iri
  | .SetFeatured iri, n => ap.SetFeatured n iri
  | .SetPublished t, n => ap.SetPublished n t
  | .SetEndTime t, n => ap.SetEndTime n t
  | .AppendClosed closed, n => ap.AppendClosed n closed
  | .SetVotersCount count, n => ap.SetVotersCount n count
  | .SetDiscoverable b, n => ap.SetDiscoverable n b

end ap

/-! ## The landing page handler of `internal/web/base.go` -/

namespace web

/-- The status codes of `net/http` the handler names. -/
def http.StatusFound : Nat := 302

def http.StatusOK : Nat := 200

def http.StatusInternalServerError : Nat := 500

/-- Modelled from the spec: the error of `gtserror.NewErrorInternalError`
(declared outside this file's sources), from which "a generic internal-error
response" is made: the error given, with the status of an internal server
error. -/
structure WithCode where
  code : Nat
  err : ap.GoError
  deriving DecidableEq, Repr

def gtserror.NewErrorInternalError (err : ap.GoError) : WithCode :=
  ⟨http.StatusInternalServerError, err⟩

/-- The value of a panic raised under the handler: the error it was raised
with. -/
structure Panic where
  err : ap.GoError
  deriving DecidableEq, Repr

/-- The object handed to the index template (the `gin.H` of the handler):
the keys "instance", "ogMeta" and "stylesheets". -/
structure IndexData (Instance OGMeta : Type) where
  inst : Instance
  ogMeta : OGMeta
  stylesheets : List String
  deriving DecidableEq, Repr

/-- What the handler writes to the request context: a redirect, whatever the
web error handler writes, or a rendered template. -/
inductive Response (Instance OGMeta ErrorPage : Type) where
  | Redirect (code : Nat) (location : String)
  | WebError (page : ErrorPage)
  | HTML (code : Nat) (name : String) (obj : IndexData Instance OGMeta)
  deriving DecidableEq, Repr

/-- The three kinds of response: the redirect, what the web error handler
wrote, the index page. -/
inductive ResponseKind where
  | redirect
  | webError
  | index
  deriving DecidableEq, Repr

def Response.kind {Instance OGMeta ErrorPage : Type} :
    Response Instance OGMeta ErrorPage → ResponseKind
  | .Redirect _ _ => .redirect
  | .WebError _ => .webError
  | .HTML _ _ _ => .index

/-- What `baseHandler` takes from outside this file's sources, over the state
`σ` of the processor: the configured landing page user, `strings.ToLower`, the
retrieval of instance information of the processor, `apiutil.WebErrorHandler`
(handed the error with code and the retrieval function; it writes a page, or
panics and writes nothing), `ogBase` and `distPathPrefix`. -/
structure Module (σ Instance OGMeta ErrorPage : Type) where
  GetLandingPageUser : String
  ToLower : String → String
  InstanceGetV1 : σ → Except ap.GoError Instance × σ
  WebErrorHandler :
    WithCode → (σ → Except ap.GoError Instance × σ) → σ → Except Panic ErrorPage × σ
  ogBase : Instance → OGMeta
  distPathPrefix : String

/-- The handler `baseHandler`: the response written, or the panic that left
none written, and the state of the processor after the call. -/
def baseHandler {σ Instance OGMeta ErrorPage : Type} (m : Module σ Instance OGMeta ErrorPage)
    (s : σ) : Except Panic (Response Instance OGMeta ErrorPage) × σ :=
  if m.GetLandingPageUser ≠ "" then
    (.ok (.Redirect http.StatusFound ("/@" ++ m.ToLower m.GetLandingPageUser)), s)
  else
    match m.InstanceGetV1 s with
    | (.error err, s) =>
      match m.WebErrorHandler (gtserror.NewErrorInternalError err) m.InstanceGetV1 s with
      | (.error p, s) => (.error p, s)
      | (.ok page, s) => (.ok (.WebError page), s)
    | (.ok inst, s) =>
      (.ok (.HTML http.StatusOK "index.tmpl"
        ⟨inst, m.ogBase inst, [m.distPathPrefix ++ "/index.css"]⟩), s)

/-- An error handler for the scenarios that answers without retrieving
anything (a client that accepts JSON): its page is the status code it was
handed. -/
def answeringHandler : WithCode → (Nat → Except ap.GoError String × Nat) → Nat →
    Except Panic Nat × Nat :=
  fun e _ k => (.ok e.code, k)

/-- An error handler for the scenarios that renders a page (a client that
accepts HTML): it retrieves the instance information again through the
function it was handed and panics with the error when that retrieval
fails. -/
def renderingHandler : WithCode → (Nat → Except ap.GoError String × Nat) → Nat →
    Except Panic Nat × Nat :=
  fun e instanceGet k =>
    match instanceGet k with
    | (.error err, k) => (.error ⟨err⟩, k)
    | (.ok _, k) => (.ok e.code, k)

/-- A module for the scenarios: the state counts the retrievals, the
retrieval answers as given, lower-casing is that of the ASCII letters. -/
def exampleModule (user : String) (answer : Except ap.GoError String)
    (handler : WithCode → (Nat → Except ap.GoError String × Nat) → Nat →
      Except Panic Nat × Nat) :
    Module Nat String String Nat where
  GetLandingPageUser := user
  ToLower := fun s => String.mk (s.data.map Char.toLower)
  InstanceGetV1 := fun k => (answer, k + 1)
  WebErrorHandler := handler
  ogBase := fun i => "og:" ++ i
  distPathPrefix := "/assets/dist"

end web

namespace ap

/-! ## The getters, call by call on a node held by reference -/

/-- A computation on a node held by reference: a panic, or the value
returned and the node after the computation. -/
def NodeM (α : Type) : Type := Node → Except Panic (α × Node)

def NodeM.pure {α : Type} (a : α) : NodeM α := fun n => .ok (a, n)

def NodeM.bind {α β : Type} (x : NodeM α) (f : α → NodeM β) : NodeM β :=
  fun n =>
    match x n with
    | .error p => .error p
    | .ok r => f r.1 r.2

instance : Monad NodeM where
  pure := NodeM.pure
  bind := NodeM.bind

/-- A call of an accessor of the node (`with.GetActivityStreamsTo()` and the
like): the container it returns, the node as it is. -/
def NodeM.read {α : Type} (f : Node → α) : NodeM α := fun n => .ok (f n, n)

/-- A call on a container already in hand that may panic (`prop.At(i)`); it
does not go through the node. -/
def NodeM.call {α : Type} (x : Except Panic α) : NodeM α :=
  fun n =>
    match x with
    | .error p => .error p
    | .ok a => .ok (a, n)

/-- A setter or appender as a computation on the node: nothing returned, the
node after the call. -/
def NodeM.write (f : Node → Node) : NodeM Unit := fun n => .ok ((), f n)

/-- What it is for the computation `g` to be a pure read with the value of
the getter `G`: on every node it returns what `G` returns and leaves the node
equal to the node before, so running it twice returns what running it once
returns. -/
def ReadsAs {α : Type} (g : NodeM α) (G : Node → Except Panic α) : Prop :=
  ∀ n : Node,
    g n = (G n).map (fun a => (a, n))
    ∧ (∃ a, g n = .ok (a, n))
    ∧ (g >>= fun _ => g) n = g n

namespace InPlace

/-- The function `GetJSONLDId` on the node. -/
def GetJSONLDId : NodeM (Option URL) := do
  let idProp ← NodeM.read (fun w => WithJSONLDId.GetJSONLDId w)
  match idProp with
  | none => return none
  | some idProp =>
    if !idProp.IsXMLSchemaAnyURI then return none
    else return idProp.Get

/-- The function `getIRIs`, on a container obtained from the node. -/
def getIRIs {T : Type} [TypeOrIRI T] (prop : Option (Property T)) :
    NodeM (List (Option URL)) :=
  match prop with
  | none => return []
  | some prop =>
    if prop.Len = 0 then return []
    else
      (List.range prop.Len).foldlM
        (fun ids i => do
          let e ← NodeM.call (prop.At i)
          return ap.getIRIs.body e ids)
        []

def GetTo : NodeM (List (Option URL)) := do
  let toProp ← NodeM.read Node.GetActivityStreamsTo
  getIRIs toProp

def GetCc : NodeM (List (Option URL)) := do
  let ccProp ← NodeM.read Node.GetActivityStreamsCc
  getIRIs ccProp

def GetBcc : NodeM (List (Option URL)) := do
  let bccProp ← NodeM.read Node.GetActivityStreamsBcc
  getIRIs bccProp

def GetActorIRIs : NodeM (List (Option URL)) := do
  let actorProp ← NodeM.read Node.GetActivityStreamsActor
  getIRIs actorProp

def GetObjectIRIs : NodeM (List (Option URL)) := do
  let objectProp ← NodeM.read Node.GetActivityStreamsObject
  getIRIs objectProp

def GetAttributedTo : NodeM (List (Option URL)) := do
  let attribProp ← NodeM.read Node.GetActivityStreamsAttributedTo
  getIRIs attribProp

def GetInReplyTo : NodeM (List (Option URL)) := do
  let replyProp ← NodeM.read Node.GetActivityStreamsInReplyTo
  getIRIs replyProp

def GetURL : NodeM (List (Option URL)) := do
  let urlProp ← NodeM.read Node.GetActivityStreamsUrl
  match urlProp with
  | none => return []
  | some urlProp =>
    if urlProp.Len = 0 then return []
    else
      (List.range urlProp.Len).foldlM
        (fun urls i => do
          let e ← NodeM.call (urlProp.At i)
          if e.IsXMLSchemaAnyURI then return urls ++ [e.GetXMLSchemaAnyURI]
          else return urls)
        []

def GetInbox : NodeM (Option URL) := do
  let inboxProp ← NodeM.read Node.GetActivityStreamsInbox
  match inboxProp with
  | none => return none
  | some inboxProp =>
    if !inboxProp.IsIRI then return none
    else return inboxProp.GetIRI

def GetOutbox : NodeM (Option URL) := do
  let outboxProp ← NodeM.read Node.GetActivityStreamsOutbox
  match outboxProp with
  | none => return none
  | some outboxProp =>
    if !outboxProp.IsIRI then return none
    else return outboxProp.GetIRI

def GetFollowing : NodeM (Option URL) := do
  let followProp ← NodeM.read Node.GetActivityStreamsFollowing
  match followProp with
  | none => return none
  | some followProp =>
    if !followProp.IsIRI then return none
    else return followProp.GetIRI

def GetFollowers : NodeM (Option URL) := do
  let followProp ← NodeM.read Node.GetActivityStreamsFollowers
  match followProp with
  | none => return none
  | some followProp =>
    if !followProp.IsIRI then return none
    else return followProp.GetIRI

def GetFeatured : NodeM (Option URL) := do
  let featuredProp ← NodeM.read Node.GetTootFeatured
  match featuredProp with
  | none => return none
  | some featuredProp =>
    if !featuredProp.IsIRI then return none
    else return featuredProp.GetIRI

def GetPublished : NodeM Time := do
  let publishProp ← NodeM.read Node.GetActivityStreamsPublished
  match publishProp with
  | none => return Time.zero
  | some publishProp =>
    if !publishProp.IsXMLSchemaDateTime then return Time.zero
    else return publishProp.GetXMLSchemaDateTime

def GetEndTime : NodeM Time := do
  let endTimeProp ← NodeM.read Node.GetActivityStreamsEndTime
  match endTimeProp with
  | none => return Time.zero
  | some endTimeProp =>
    if !endTimeProp.IsXMLSchemaDateTime then return Time.zero
    else return endTimeProp.GetXMLSchemaDateTime

def GetVotersCount : NodeM Int := do
  let votersProp ← NodeM.read Node.GetTootVotersCount
  match votersProp with
  | none => return 0
  | some votersProp =>
    if !votersProp.IsXMLSchemaNonNegativeInteger then return 0
    else return votersProp.GetXMLSchemaNonNegativeInteger

def GetDiscoverable : NodeM Bool := do
  let discoverProp ← NodeM.read Node.GetTootDiscoverable
  match discoverProp with
  | none => return false
  | some discoverProp =>
    if !discoverProp.IsXMLSchemaBoolean then return false
    else return discoverProp.GetXMLSchemaBoolean

def GetClosed : NodeM (List Time) := do
  let closedProp ← NodeM.read Node.GetActivityStreamsClosed
  match closedProp with
  | none => return []
  | some closedProp =>
    if closedProp.Len = 0 then return []
    else
      (List.range closedProp.Len).foldlM
        (fun closed i => do
          let e ← NodeM.call (closedProp.At i)
          if e.IsXMLSchemaDateTime then return closed ++ [e.GetXMLSchemaDateTime]
          else return closed)
        []

end InPlace

/-! ## Lemmas on the index loops -/

theorem At_of_lt {T : Type} (prop : Property T) (i : Nat) (h : i < prop.properties.length) :
    prop.At i = .ok prop.properties[i] := by
  simp [Property.At, List.getElem?_eq_getElem h]

/-- A loop `for i := 0; i < prop.Len(); i++` whose body reads `prop.At(i)` and
cannot fail is the left fold of its body over the entries, and returns. -/
theorem range_foldlM_At {T β : Type} (prop : Property T) (g : β → T → Except Panic β)
    (f : β → T → β) (hg : ∀ a e, g a e = .ok (f a e)) (init : β) :
    (List.range prop.Len).foldlM
        (fun acc i =>
          match prop.At i with
          | .error p => .error p
          | .ok e => g acc e)
        init
      = Except.ok (prop.properties.foldl f init) := by
  have key : ∀ n, n ≤ prop.properties.length →
      (List.range n).foldlM
          (fun acc i =>
            match prop.At i with
            | .error p => .error p
            | .ok e => g acc e)
          init
        = Except.ok ((prop.properties.take n).foldl f init) := by
    intro n
    induction n with
    | zero => intro _; rfl
    | succ k ih =>
      intro hk
      have hk1 : k < prop.properties.length := hk
      rw [List.range_succ, List.foldlM_append, ih (Nat.le_of_lt hk1)]
      rw [List.take_succ, List.foldl_append]
      simp [At_of_lt prop k hk1, hg, List.getElem?_eq_getElem hk1, bind, Except.bind, pure,
        Except.pure]
  have := key prop.properties.length (Nat.le_refl _)
  simpa [Property.Len] using this

theorem getIRIs_body_eq {T : Type} [TypeOrIRI T] (e : T) (ids : List (Option URL)) :
    getIRIs.body e ids = ids ++ ((entryIdentifier e).toList.map some) := by
  unfold getIRIs.body entryIdentifier
  cases hT : TypeOrIRI.GetType e with
  | none =>
    cases hI : TypeOrIRI.IsIRI e <;> cases hG : TypeOrIRI.GetIRI e <;> simp
  | some t =>
    cases hJ : GetJSONLDId t with
    | none => cases hI : TypeOrIRI.IsIRI e <;> cases hG : TypeOrIRI.GetIRI e <;> simp [hJ]
    | some u => simp [hJ]

theorem foldl_body_eq {T : Type} [TypeOrIRI T] (l : List T) (ids : List (Option URL)) :
    l.foldl (fun acc e => getIRIs.body e acc) ids
      = ids ++ (l.filterMap entryIdentifier).map some := by
  induction l generalizing ids with
  | nil => simp
  | cons e l ih =>
    rw [List.foldl_cons, ih, getIRIs_body_eq]
    cases h : entryIdentifier e <;> simp [List.filterMap_cons, h]

/-- The function `getIRIs` returns, and what it returns is the filter-map of
the entries under the per-entry rule. -/
theorem getIRIs_eq {T : Type} [TypeOrIRI T] (c : Option (Property T)) :
    getIRIs c = .ok (((entriesOf c).filterMap entryIdentifier).map some) := by
  cases c with
  | none => rfl
  | some prop =>
    unfold getIRIs
    by_cases h0 : prop.Len = 0
    · have : prop.properties = [] := List.length_eq_zero.mp h0
      simp [h0, entriesOf, this]
    · simp only [h0, if_false]
      rw [range_foldlM_At prop (fun ids e => .ok (getIRIs.body e ids))
        (fun ids e => getIRIs.body e ids) (fun _ _ => rfl) [], foldl_body_eq]
      simp [entriesOf]

/-- Claim C1.  For every property container (absent, empty or populated, of
any entry type satisfying the entry contract), `getIRIs` returns the in-order
filter-map of the entries under the rule: an embedded node carrying an
identity yields it, otherwise a bare IRI yields it, otherwise nothing.  In
particular the container `[embedded node with id U, bare IRI V, embedded
node without id]` gives exactly `[U, V]`. -/
theorem getIRIs_filterMap_entries :
    (∀ (T : Type) (_ : TypeOrIRI T) (c : Option (Property T)),
      getIRIs c = .ok (((entriesOf c).filterMap entryIdentifier).map some))
    ∧ (∀ (U V : URL) (tn tn2 : String),
        getIRIs (some (⟨[Value.type ⟨tn, some ⟨some U⟩⟩, Value.iri (some V),
          Value.type ⟨tn2, none⟩]⟩ : Property Value)) = .ok [some U, some V])
    ∧ (∀ (U V : URL) (tn tn2 : String),
        getIRIs (some (⟨[Value.type ⟨tn, some ⟨some U⟩⟩, Value.iri (some V),
          Value.type ⟨tn2, some ⟨none⟩⟩]⟩ : Property Value)) = .ok [some U, some V]) := by
  refine ⟨fun T _ c => getIRIs_eq c, ?_, ?_⟩
  · intro U V tn tn2
    rw [getIRIs_eq]
    rfl
  · intro U V tn tn2
    rw [getIRIs_eq]
    rfl

/-! ## Lemmas on the append primitive -/

/-- Appending through the handle of a present container extends that
container by one bare IRI entry per identifier, in order. -/
theorem foldl_propertyRef (get : Node → Option (Property Value))
    (set : Node → Option (Property Value) → Node)
    (hgs : ∀ n p, get (set n p) = p) (hss : ∀ n p q, set (set n p) q = set n q)
    (iri : List (Option URL)) (n : Node) (p : Property Value) :
    iri.foldl (fun s u => (Node.propertyRef get set).AppendIRI u s) (set n (some p))
      = set n (some ⟨p.properties ++ iri.map Value.iri⟩) := by
  induction iri generalizing p with
  | nil => simp
  | cons u us ih =>
    rw [List.foldl_cons]
    have h1 : (Node.propertyRef get set).AppendIRI u (set n (some p))
        = set n (some (p.AppendIRI u)) := by
      simp [Node.propertyRef, hgs, hss]
    rw [h1, ih]
    simp [Property.AppendIRI]

/-- What every `Append…` function of a reference-valued property does, given
the accessors `get` / `set` of the property: nothing for an empty list;
otherwise the container (created when absent) gains the identifiers as bare
IRI entries, in order, and the call returns normally. -/
theorem appendIRIs_node (get : Node → Option (Property Value))
    (set : Node → Option (Property Value) → Node)
    (hgs : ∀ n p, get (set n p) = p) (hss : ∀ n p q, set (set n p) q = set n q)
    (hsg : ∀ n, set n (get n) = n)
    (iri : List (Option URL)) (n : Node) :
    appendIRIs
        (fun w =>
          match get w with
          | none => (some (Node.propertyRef get set), set w (some NewProperty))
          | some _ => (some (Node.propertyRef get set), w))
        iri n
      = (.ok (), if iri = [] then n
                 else set n (some ⟨entriesOf (get n) ++ iri.map Value.iri⟩)) := by
  unfold appendIRIs
  cases iri with
  | nil => simp
  | cons u us =>
    simp only [List.length_cons, Nat.succ_ne_zero, if_false, reduceCtorEq]
    cases hg : get n with
    | none =>
      simp only []
      rw [foldl_propertyRef get set hgs hss]
      simp [NewProperty, entriesOf]
    | some p =>
      simp only []
      have hn : n = set n (some p) := by rw [← hg, hsg]
      conv_lhs => rw [hn]
      rw [foldl_propertyRef get set hgs hss]
      simp [entriesOf]

theorem AppendTo_eq (n : Node) (iri : List (Option URL)) :
    AppendTo n iri = (.ok (), if iri = [] then n else
      n.SetActivityStreamsTo (some ⟨entriesOf n.GetActivityStreamsTo ++ iri.map Value.iri⟩)) :=
  appendIRIs_node Node.GetActivityStreamsTo Node.SetActivityStreamsTo
    (fun _ _ => rfl) (fun _ _ _ => rfl) (fun _ => rfl) iri n

theorem AppendCc_eq (n : Node) (iri : List (Option URL)) :
    AppendCc n iri = (.ok (), if iri = [] then n else
      n.SetActivityStreamsCc (some ⟨entriesOf n.GetActivityStreamsCc ++ iri.map Value.iri⟩)) :=
  appendIRIs_node Node.GetActivityStreamsCc Node.SetActivityStreamsCc
    (fun _ _ => rfl) (fun _ _ _ => rfl) (fun _ => rfl) iri n

theorem AppendBcc_eq (n : Node) (iri : List (Option URL)) :
    AppendBcc n iri = (.ok (), if iri = [] then n else
      n.SetActivityStreamsBcc (some ⟨entriesOf n.GetActivityStreamsBcc ++ iri.map Value.iri⟩)) :=
  appendIRIs_node Node.GetActivityStreamsBcc Node.SetActivityStreamsBcc
    (fun _ _ => rfl) (fun _ _ _ => rfl) (fun _ => rfl) iri n

theorem AppendActorIRIs_eq (n : Node) (iri : List (Option URL)) :
    AppendActorIRIs n iri = (.ok (), if iri = [] then n else
      n.SetActivityStreamsActor
        (some ⟨entriesOf n.GetActivityStreamsActor ++ iri.map Value.iri⟩)) :=
  appendIRIs_node Node.GetActivityStreamsActor Node.SetActivityStreamsActor
    (fun _ _ => rfl) (fun _ _ _ => rfl) (fun _ => rfl) iri n

theorem AppendAttributedTo_eq (n : Node) (iri : List (Option URL)) :
    AppendAttributedTo n iri = (.ok (), if iri = [] then n else
      n.SetActivityStreamsAttributedTo
        (some ⟨entriesOf n.GetActivityStreamsAttributedTo ++ iri.map Value.iri⟩)) :=
  appendIRIs_node Node.GetActivityStreamsAttributedTo Node.SetActivityStreamsAttributedTo
    (fun _ _ => rfl) (fun _ _ _ => rfl) (fun _ => rfl) iri n

theorem AppendInReplyTo_eq (n : Node) (iri : List (Option URL)) :
    AppendInReplyTo n iri = (.ok (), if iri = [] then n else
      n.SetActivityStreamsInReplyTo
        (some ⟨entriesOf n.GetActivityStreamsInReplyTo ++ iri.map Value.iri⟩)) :=
  appendIRIs_node Node.GetActivityStreamsInReplyTo Node.SetActivityStreamsInReplyTo
    (fun _ _ => rfl) (fun _ _ _ => rfl) (fun _ => rfl) iri n

theorem AppendObjectIRIs_eq (n : Node) : AppendObjectIRIs n = (.ok (), n) := by
  simp [AppendObjectIRIs, appendIRIs]

/-- Bare IRI entries holding non-nil identifiers are extracted as they
stand. -/
theorem filterMap_iri_some (L : List URL) :
    ((L.map some).map Value.iri).filterMap entryIdentifier = L := by
  induction L with
  | nil => rfl
  | cons u us ih =>
    simp only [List.map_cons, List.filterMap_cons]
    have : entryIdentifier (Value.iri (some u)) = some u := rfl
    rw [this, ih]

/-- Extraction from a container that holds exactly the bare IRI entries of a
list of non-nil identifiers gives back the list. -/
theorem getIRIs_iri_some (L : List URL) :
    getIRIs (some (⟨(L.map some).map Value.iri⟩ : Property Value)) = .ok (L.map some) := by
  rw [getIRIs_eq]
  show Except.ok ((((L.map some).map Value.iri).filterMap entryIdentifier).map some) = _
  rw [filterMap_iri_some]

/-! ## The claims -/

/-- Claim C2.  For each of To, Cc, Bcc, Actor, AttributedTo and InReplyTo, on
a node where the property is unset, appending a non-empty list of identifiers
returns normally and the getter then returns exactly that list, in the same
order, duplicates kept. -/
theorem append_then_get_returns_list (n : Node) (L : List URL) (hL : L ≠ []) :
    (n.GetActivityStreamsTo = none →
      (AppendTo n (L.map some)).1 = .ok ()
        ∧ GetTo (AppendTo n (L.map some)).2 = .ok (L.map some))
    ∧ (n.GetActivityStreamsCc = none →
      (AppendCc n (L.map some)).1 = .ok ()
        ∧ GetCc (AppendCc n (L.map some)).2 = .ok (L.map some))
    ∧ (n.GetActivityStreamsBcc = none →
      (AppendBcc n (L.map some)).1 = .ok ()
        ∧ GetBcc (AppendBcc n (L.map some)).2 = .ok (L.map some))
    ∧ (n.GetActivityStreamsActor = none →
      (AppendActorIRIs n (L.map some)).1 = .ok ()
        ∧ GetActorIRIs (AppendActorIRIs n (L.map some)).2 = .ok (L.map some))
    ∧ (n.GetActivityStreamsAttributedTo = none →
      (AppendAttributedTo n (L.map some)).1 = .ok ()
        ∧ GetAttributedTo (AppendAttributedTo n (L.map some)).2 = .ok (L.map some))
    ∧ (n.GetActivityStreamsInReplyTo = none →
      (AppendInReplyTo n (L.map some)).1 = .ok ()
        ∧ GetInReplyTo (AppendInReplyTo n (L.map some)).2 = .ok (L.map some)) := by
  refine ⟨?_, ?_, ?_, ?_, ?_, ?_⟩
  · intro h
    rw [AppendTo_eq]
    simp only [List.map_eq_nil_iff, hL, if_false, h, entriesOf, List.nil_append, true_and]
    exact getIRIs_iri_some L
  · intro h
    rw [AppendCc_eq]
    simp only [List.map_eq_nil_iff, hL, if_false, h, entriesOf, List.nil_append, true_and]
    exact getIRIs_iri_some L
  · intro h
    rw [AppendBcc_eq]
    simp only [List.map_eq_nil_iff, hL, if_false, h, entriesOf, List.nil_append, true_and]
    exact getIRIs_iri_some L
  · intro h
    rw [AppendActorIRIs_eq]
    simp only [List.map_eq_nil_iff, hL, if_false, h, entriesOf, List.nil_append, true_and]
    exact getIRIs_iri_some L
  · intro h
    rw [AppendAttributedTo_eq]
    simp only [List.map_eq_nil_iff, hL, if_false, h, entriesOf, List.nil_append, true_and]
    exact getIRIs_iri_some L
  · intro h
    rw [AppendInReplyTo_eq]
    simp only [List.map_eq_nil_iff, hL, if_false, h, entriesOf, List.nil_append, true_and]
    exact getIRIs_iri_some L

/-- The scenario of claim C2: on a fresh node, `AppendTo` of
`https://a.example/u1` and `https://b.example/u2`, then `GetTo`. -/
theorem append_then_get_returns_list_witness :
    (["https://a.example/u1", "https://b.example/u2"] : List URL) ≠ []
    ∧ (Node.fresh "Note").GetActivityStreamsTo = none
    ∧ GetTo (AppendTo (Node.fresh "Note")
        [some "https://a.example/u1", some "https://b.example/u2"]).2
      = .ok [some "https://a.example/u1", some "https://b.example/u2"] :=
  ⟨by decide, rfl,
    ((append_then_get_returns_list (Node.fresh "Note")
      ["https://a.example/u1", "https://b.example/u2"] (by decide)).1 rfl).2⟩

/-- Claim C3, the code at the failing input.  `AppendObjectIRIs` has no
identifier parameter: it leaves every node as it was, so on a node with
Object unset `GetObjectIRIs` afterwards returns the empty list, whatever list
the caller meant to append. -/
theorem AppendObjectIRIs_appends_nothing :
    (∀ n : Node, AppendObjectIRIs n = (.ok (), n))
    ∧ (AppendObjectIRIs (Node.fresh "Announce")).2.GetActivityStreamsObject = none
    ∧ GetObjectIRIs (AppendObjectIRIs (Node.fresh "Announce")).2 = .ok []
    ∧ GetObjectIRIs (AppendObjectIRIs (Node.fresh "Announce")).2
        ≠ .ok [some "https://a.example/u1"] := by
  refine ⟨AppendObjectIRIs_eq, ?_, ?_, ?_⟩
  · rw [AppendObjectIRIs_eq]; rfl
  · rw [AppendObjectIRIs_eq]; rfl
  · rw [AppendObjectIRIs_eq]; decide

/-- Claim C4.  An append with zero values creates no state: for every node,
each of the nine appenders called with no value returns the node unchanged
(so an absent container stays absent); and `appendIRIs` with an empty list
returns the state it was given whatever the factory would do to it: a factory
that counts its invocations is left at its count. -/
theorem append_nothing_creates_nothing (n : Node) :
    AppendTo n [] = (.ok (), n)
    ∧ AppendCc n [] = (.ok (), n)
    ∧ AppendBcc n [] = (.ok (), n)
    ∧ AppendActorIRIs n [] = (.ok (), n)
    ∧ AppendObjectIRIs n = (.ok (), n)
    ∧ AppendAttributedTo n [] = (.ok (), n)
    ∧ AppendInReplyTo n [] = (.ok (), n)
    ∧ AppendURL n [] = n
    ∧ AppendClosed n [] = n
    ∧ (∀ (σ : Type) (getProp : σ → Option (PropertyRef σ) × σ) (s : σ),
        appendIRIs getProp [] s = (.ok (), s))
    ∧ (∀ (σ : Type) (getProp : σ → Option (PropertyRef σ) × σ) (s : σ) (k : Nat),
        appendIRIs (countedFactory getProp) [] (k, s) = (.ok (), (k, s))) := by
  refine ⟨?_, ?_, ?_, ?_, ?_, ?_, ?_, ?_, ?_, ?_, ?_⟩
  · simp [AppendTo, appendIRIs]
  · simp [AppendCc, appendIRIs]
  · simp [AppendBcc, appendIRIs]
  · simp [AppendActorIRIs, appendIRIs]
  · simp [AppendObjectIRIs, appendIRIs]
  · simp [AppendAttributedTo, appendIRIs]
  · simp [AppendInReplyTo, appendIRIs]
  · simp [AppendURL]
  · simp [AppendClosed]
  · intro σ getProp s; simp [appendIRIs]
  · intro σ getProp s k; simp [appendIRIs]

/-- Claim C5.  Every multi-valued getter returns the empty sequence on a
node where its property is unset or set to a container with no entry. -/
theorem getters_empty_when_unset (n : Node) :
    ((n.GetActivityStreamsTo = none ∨ n.GetActivityStreamsTo = some ⟨[]⟩) →
      GetTo n = .ok [])
    ∧ ((n.GetActivityStreamsCc = none ∨ n.GetActivityStreamsCc = some ⟨[]⟩) →
      GetCc n = .ok [])
    ∧ ((n.GetActivityStreamsBcc = none ∨ n.GetActivityStreamsBcc = some ⟨[]⟩) →
      GetBcc n = .ok [])
    ∧ ((n.GetActivityStreamsActor = none ∨ n.GetActivityStreamsActor = some ⟨[]⟩) →
      GetActorIRIs n = .ok [])
    ∧ ((n.GetActivityStreamsObject = none ∨ n.GetActivityStreamsObject = some ⟨[]⟩) →
      GetObjectIRIs n = .ok [])
    ∧ ((n.GetActivityStreamsAttributedTo = none
        ∨ n.GetActivityStreamsAttributedTo = some ⟨[]⟩) →
      GetAttributedTo n = .ok [])
    ∧ ((n.GetActivityStreamsInReplyTo = none ∨ n.GetActivityStreamsInReplyTo = some ⟨[]⟩) →
      GetInReplyTo n = .ok [])
    ∧ ((n.GetActivityStreamsUrl = none ∨ n.GetActivityStreamsUrl = some ⟨[]⟩) →
      GetURL n = .ok [])
    ∧ ((n.GetActivityStreamsClosed = none ∨ n.GetActivityStreamsClosed = some ⟨[]⟩) →
      GetClosed n = .ok []) := by
  refine ⟨?_, ?_, ?_, ?_, ?_, ?_, ?_, ?_, ?_⟩
  · rintro (h | h) <;> simp [GetTo, h, getIRIs, Property.Len]
  · rintro (h | h) <;> simp [GetCc, h, getIRIs, Property.Len]
  · rintro (h | h) <;> simp [GetBcc, h, getIRIs, Property.Len]
  · rintro (h | h) <;> simp [GetActorIRIs, h, getIRIs, Property.Len]
  · rintro (h | h) <;> simp [GetObjectIRIs, h, getIRIs, Property.Len]
  · rintro (h | h) <;> simp [GetAttributedTo, h, getIRIs, Property.Len]
  · rintro (h | h) <;> simp [GetInReplyTo, h, getIRIs, Property.Len]
  · rintro (h | h) <;> simp [GetURL, h, Property.Len]
  · rintro (h | h) <;> simp [GetClosed, h, Property.Len]

/-- Scenario 1 of the specification, and its siblings: on a fresh node every
multi-valued getter returns the empty sequence; so does `GetTo` on a node
whose To container is present with no entry. -/
theorem getters_empty_when_unset_witness :
    GetTo (Node.fresh "Note") = .ok []
    ∧ GetURL (Node.fresh "Note") = .ok []
    ∧ GetClosed (Node.fresh "Question") = .ok []
    ∧ GetTo ((Node.fresh "Note").SetActivityStreamsTo (some ⟨[]⟩)) = .ok [] :=
  ⟨(getters_empty_when_unset (Node.fresh "Note")).1 (Or.inl rfl),
    (getters_empty_when_unset (Node.fresh "Note")).2.2.2.2.2.2.2.1 (Or.inl rfl),
    (getters_empty_when_unset (Node.fresh "Question")).2.2.2.2.2.2.2.2 (Or.inl rfl),
    (getters_empty_when_unset ((Node.fresh "Note").SetActivityStreamsTo (some ⟨[]⟩))).1
      (Or.inr rfl)⟩

/-- Claim C6.  For Published, EndTime, VotersCount and Discoverable, every
node (whatever the property held before: nothing, a literal, or another
representation) and every value: `Get` after `Set` returns the value, and a
second `Set` overwrites the first.  Includes the two scenarios of the
specification. -/
theorem set_then_get_scalar (n : Node) :
    (∀ v, GetPublished (SetPublished n v) = v)
    ∧ (∀ v, GetEndTime (SetEndTime n v) = v)
    ∧ (∀ v, GetVotersCount (SetVotersCount n v) = v)
    ∧ (∀ v, GetDiscoverable (SetDiscoverable n v) = v)
    ∧ (∀ v1 v2, GetPublished (SetPublished (SetPublished n v1) v2) = v2)
    ∧ (∀ v1 v2, GetEndTime (SetEndTime (SetEndTime n v1) v2) = v2)
    ∧ (∀ v1 v2, GetVotersCount (SetVotersCount (SetVotersCount n v1) v2) = v2)
    ∧ (∀ v1 v2, GetDiscoverable (SetDiscoverable (SetDiscoverable n v1) v2) = v2) := by
  have hP : ∀ (m : Node) v, GetPublished (SetPublished m v) = v := by
    intro m v
    unfold GetPublished SetPublished
    cases h : m.GetActivityStreamsPublished <;> rfl
  have hE : ∀ (m : Node) v, GetEndTime (SetEndTime m v) = v := by
    intro m v
    unfold GetEndTime SetEndTime
    cases h : m.GetActivityStreamsEndTime <;> rfl
  have hV : ∀ (m : Node) v, GetVotersCount (SetVotersCount m v) = v := by
    intro m v
    unfold GetVotersCount SetVotersCount
    cases h : m.GetTootVotersCount <;> rfl
  have hD : ∀ (m : Node) v, GetDiscoverable (SetDiscoverable m v) = v := by
    intro m v
    unfold GetDiscoverable SetDiscoverable
    cases h : m.GetTootDiscoverable <;> rfl
  exact ⟨hP n, hE n, hV n, hD n, fun _ v2 => hP _ v2, fun _ v2 => hE _ v2,
    fun _ v2 => hV _ v2, fun _ v2 => hD _ v2⟩

/-- The scenarios of claim C6: 2024-01-01T00:00:00Z (Unix second 1704067200)
is read back from Published, 5 from VotersCount; and a Published container
that held an IRI reads back the time set over it. -/
theorem set_then_get_scalar_witness :
    GetPublished (SetPublished (Node.fresh "Note") ⟨1704067200, 0⟩) = ⟨1704067200, 0⟩
    ∧ GetVotersCount (SetVotersCount (Node.fresh "Question") 5) = 5
    ∧ GetPublished (SetPublished
        ((Node.fresh "Note").SetActivityStreamsPublished
          (some (Value.iri (some "https://a.example/u1")))) ⟨1704067200, 0⟩)
        = ⟨1704067200, 0⟩ :=
  ⟨(set_then_get_scalar (Node.fresh "Note")).1 _,
    (set_then_get_scalar (Node.fresh "Question")).2.2.1 _,
    (set_then_get_scalar _).1 _⟩

/-- Claim C7.  Scalar reads are total and treat a mismatch as absence: each
getter returns the stored literal when the container is present and holds a
literal of the expected kind, and the zero value (zero time, 0, false) in
every other case: container absent, holding nothing, an IRI, an embedded node
or a literal of another kind. -/
theorem scalar_get_default_on_mismatch (n : Node) :
    (GetPublished n =
      match n.GetActivityStreamsPublished with
      | some (Value.dateTime t) => t
      | _ => Time.zero)
    ∧ (GetEndTime n =
      match n.GetActivityStreamsEndTime with
      | some (Value.dateTime t) => t
      | _ => Time.zero)
    ∧ (GetVotersCount n =
      match n.GetTootVotersCount with
      | some (Value.nonNegativeInteger k) => k
      | _ => 0)
    ∧ (GetDiscoverable n =
      match n.GetTootDiscoverable with
      | some (Value.boolean b) => b
      | _ => false)
    ∧ (∀ u, n.GetActivityStreamsPublished = some (Value.iri u) → GetPublished n = Time.zero)
    ∧ (∀ u, n.GetActivityStreamsEndTime = some (Value.iri u) → GetEndTime n = Time.zero)
    ∧ (∀ u, n.GetTootVotersCount = some (Value.iri u) → GetVotersCount n = 0)
    ∧ (∀ u, n.GetTootDiscoverable = some (Value.iri u) → GetDiscoverable n = false) := by
  refine ⟨?_, ?_, ?_, ?_, ?_, ?_, ?_, ?_⟩
  · unfold GetPublished
    cases h : n.GetActivityStreamsPublished with
    | none => rfl
    | some v => cases v <;> rfl
  · unfold GetEndTime
    cases h : n.GetActivityStreamsEndTime with
    | none => rfl
    | some v => cases v <;> rfl
  · unfold GetVotersCount
    cases h : n.GetTootVotersCount with
    | none => rfl
    | some v => cases v <;> rfl
  · unfold GetDiscoverable
    cases h : n.GetTootDiscoverable with
    | none => rfl
    | some v => cases v <;> rfl
  · intro u h; unfold GetPublished; rw [h]; rfl
  · intro u h; unfold GetEndTime; rw [h]; rfl
  · intro u h; unfold GetVotersCount; rw [h]; rfl
  · intro u h; unfold GetDiscoverable; rw [h]; rfl

/-- Instances of claim C7: a VotersCount container holding an IRI reads 0, an
untouched node reads 0, a Discoverable container holding a timestamp reads
false. -/
theorem scalar_get_default_on_mismatch_witness :
    GetVotersCount ((Node.fresh "Question").SetTootVotersCount
        (some (Value.iri (some "https://a.example/u1")))) = 0
    ∧ GetVotersCount (Node.fresh "Question") = 0
    ∧ GetDiscoverable ((Node.fresh "Person").SetTootDiscoverable
        (some (Value.dateTime ⟨1704067200, 0⟩))) = false :=
  ⟨(scalar_get_default_on_mismatch _).2.2.2.2.2.2.1 _ rfl,
    (scalar_get_default_on_mismatch (Node.fresh "Question")).2.2.1,
    (scalar_get_default_on_mismatch
      ((Node.fresh "Person").SetTootDiscoverable
        (some (Value.dateTime ⟨1704067200, 0⟩)))).2.2.2.1⟩

/-- Claim C8.  `SetJSONLDIdStr` is atomic on failure: it returns an error
exactly when parsing the string fails; then the node is as it was (an unset
identity is still unset) and the error wraps the parse error; when parsing
succeeds it returns no error and the node's identity is the parsed
identifier.  `parse` is any function in the place of `url.Parse`. -/
theorem SetJSONLDIdStr_atomic (parse : String → Except GoError URL) (n : Node) (s : String) :
    (((SetJSONLDIdStr parse n s).1 ≠ none) ↔ ∃ e, parse s = .error e)
    ∧ (∀ e, parse s = .error e →
        SetJSONLDIdStr parse n s
          = (some (GoError.wrap ("error parsing id url: " ++ e.Error) e), n))
    ∧ (∀ e, parse s = .error e →
        GetJSONLDId (SetJSONLDIdStr parse n s).2 = GetJSONLDId n)
    ∧ (∀ e, parse s = .error e → WithJSONLDId.GetJSONLDId n = none →
        GetJSONLDId (SetJSONLDIdStr parse n s).2 = none)
    ∧ (∀ u, parse s = .ok u →
        (SetJSONLDIdStr parse n s).1 = none
          ∧ GetJSONLDId (SetJSONLDIdStr parse n s).2 = some u
          ∧ (SetJSONLDIdStr parse n s).2 = SetJSONLDId n (some u)) := by
  have hfmt : ∀ e : GoError, fmt.Errorf "error parsing id url: %w" [.error e]
      = GoError.wrap ("error parsing id url: " ++ e.Error) e := by
    intro e
    simp only [fmt.Errorf, fmt.format, fmt.wrapped, fmt.verb]
    simp
    apply String.ext
    simp [String.data_append]
  have hget : ∀ u : URL, GetJSONLDId (SetJSONLDId n (some u)) = some u := by
    intro u
    unfold GetJSONLDId SetJSONLDId
    cases h : (WithJSONLDId.GetJSONLDId n : Option JSONLDIdProperty) <;> rfl
  refine ⟨?_, ?_, ?_, ?_, ?_⟩
  · unfold SetJSONLDIdStr
    cases h : parse s <;> simp
  · intro e h
    unfold SetJSONLDIdStr
    rw [h]
    simp only [hfmt]
  · intro e h
    unfold SetJSONLDIdStr
    rw [h]
  · intro e h hn
    unfold SetJSONLDIdStr
    rw [h]
    simp only [GetJSONLDId, hn]
  · intro u h
    unfold SetJSONLDIdStr
    rw [h]
    exact ⟨rfl, hget u, rfl⟩

/-- Scenario 5 of the specification: `"http://x.example/id"` is set and read
back; `"\x01bad"` is refused with an error and the identity of the fresh node
stays absent. -/
theorem SetJSONLDIdStr_atomic_witness :
    parseRejectingControl "\x01bad"
        = .error (.new "net/url: invalid control character in URL")
    ∧ (SetJSONLDIdStr parseRejectingControl (Node.fresh "Note") "\x01bad").1 ≠ none
    ∧ GetJSONLDId (SetJSONLDIdStr parseRejectingControl (Node.fresh "Note") "\x01bad").2 = none
    ∧ (SetJSONLDIdStr parseRejectingControl (Node.fresh "Note") "http://x.example/id").1 = none
    ∧ GetJSONLDId (SetJSONLDIdStr parseRejectingControl (Node.fresh "Note")
        "http://x.example/id").2 = some "http://x.example/id" :=
  ⟨by decide,
    (SetJSONLDIdStr_atomic parseRejectingControl (Node.fresh "Note") "\x01bad").1.mpr
      ⟨_, rfl⟩,
    (SetJSONLDIdStr_atomic parseRejectingControl (Node.fresh "Note") "\x01bad").2.2.2.1
      _ rfl rfl,
    ((SetJSONLDIdStr_atomic parseRejectingControl (Node.fresh "Note")
      "http://x.example/id").2.2.2.2 _ rfl).1,
    ((SetJSONLDIdStr_atomic parseRejectingControl (Node.fresh "Note")
      "http://x.example/id").2.2.2.2 _ rfl).2.1⟩

/-- Claim C9.  `MustSet fn w v` runs `fn w v` exactly once (the state after
`MustSet` is the state after one call, and a setter counting its calls has
been called once more), panics exactly when that call reports an error, and
then the panic carries the error of `gtserror.NewfAt` at call depth 3 + 1
whose message names the type of `w` and wraps the setter's error; when the
setter succeeds `MustSet` returns normally, with the setter's effect only. -/
theorem MustSet_panics_iff_error {W T σ : Type} (typeOf : W → String)
    (fn : W → T → σ → Option GoError × σ) (w : W) (v : T) (s : σ) :
    (MustSet typeOf fn w v s).2 = (fn w v s).2
    ∧ (∀ k : Nat, (MustSet typeOf (counted fn) w v (k, s)).2 = (k + 1, (fn w v s).2))
    ∧ ((∃ p, (MustSet typeOf fn w v s).1 = .error p) ↔ ∃ e, (fn w v s).1 = some e)
    ∧ (∀ e, (fn w v s).1 = some e →
        (MustSet typeOf fn w v s).1
          = .error (Panic.err ⟨4,
              GoError.wrap ("error setting property on " ++ typeOf w ++ ": " ++ e.Error) e⟩))
    ∧ ((fn w v s).1 = none → MustSet typeOf fn w v s = (.ok (), (fn w v s).2)) := by
  have hfmt : ∀ e : GoError,
      fmt.Errorf "error setting property on %T: %w" [.any (typeOf w), .error e]
        = GoError.wrap ("error setting property on " ++ typeOf w ++ ": " ++ e.Error) e := by
    intro e
    simp only [fmt.Errorf, fmt.format, fmt.wrapped, fmt.verb]
    simp
    apply String.ext
    simp [String.data_append]
  have hrun : ∀ (τ : Type) (g : W → T → τ → Option GoError × τ) (t : τ),
      MustSet typeOf g w v t
        = (match (g w v t).1 with
            | some err => .error (panicfAt 3 "error setting property on %T: %w"
                [.any (typeOf w), .error err])
            | none => .ok (),
           (g w v t).2) := by
    intro τ g t
    unfold MustSet
    rcases h : g w v t with ⟨o, t2⟩
    cases o <;> rfl
  refine ⟨?_, ?_, ?_, ?_, ?_⟩
  · rw [hrun]
  · intro k
    rw [hrun]
    rfl
  · rw [hrun]
    cases h : (fn w v s).1 <;> simp
  · intro e h
    rw [hrun]
    simp only [h, panicfAt, gtserror.NewfAt, hfmt]
  · intro h
    rw [hrun]
    simp only [h]

/-- An instance of claim C9: `MustSet` over `SetJSONLDIdStr` on the malformed
string panics, the message naming the node's type; on a well-formed string it
returns with the identity set. -/
theorem MustSet_panics_iff_error_witness :
    (MustSet (fun _ => "*typenote.ActivityStreamsNote") (setIdStrOn parseRejectingControl)
        () "\x01bad" (Node.fresh "Note")).1
      = .error (Panic.err ⟨4, GoError.wrap
          ("error setting property on *typenote.ActivityStreamsNote: "
            ++ "error parsing id url: net/url: invalid control character in URL")
          (GoError.wrap "error parsing id url: net/url: invalid control character in URL"
            (GoError.new "net/url: invalid control character in URL"))⟩)
    ∧ MustSet (fun _ => "*typenote.ActivityStreamsNote") (setIdStrOn parseRejectingControl)
        () "http://x.example/id" (Node.fresh "Note")
      = (.ok (), SetJSONLDId (Node.fresh "Note") (some "http://x.example/id")) :=
  ⟨(MustSet_panics_iff_error (fun _ => "*typenote.ActivityStreamsNote")
      (setIdStrOn parseRejectingControl) () "\x01bad" (Node.fresh "Note")).2.2.2.1
      (GoError.wrap "error parsing id url: net/url: invalid control character in URL"
        (GoError.new "net/url: invalid control character in URL")) rfl,
    (MustSet_panics_iff_error (fun _ => "*typenote.ActivityStreamsNote")
      (setIdStrOn parseRejectingControl) () "http://x.example/id"
      (Node.fresh "Note")).2.2.2.2 rfl⟩

/-- Claim C10, the code at the failing input.  The source comments on `GetTo`,
`GetCc` and `GetBcc` say "Panics on entries with missing ID"; the code does
not: on a node whose container holds just an embedded node without identity
(and no bare IRI) each of them returns the empty list, and no node makes any
of them panic. -/
theorem getters_return_on_missing_id :
    (¬ ∃ (n : Node) (p : Panic),
        GetTo n = .error p ∨ GetCc n = .error p ∨ GetBcc n = .error p)
    ∧ GetTo ((Node.fresh "Note").SetActivityStreamsTo
        (some ⟨[Value.type ⟨"Person", none⟩]⟩)) = .ok []
    ∧ GetCc ((Node.fresh "Note").SetActivityStreamsCc
        (some ⟨[Value.type ⟨"Person", none⟩]⟩)) = .ok []
    ∧ GetBcc ((Node.fresh "Note").SetActivityStreamsBcc
        (some ⟨[Value.type ⟨"Person", some ⟨none⟩⟩]⟩)) = .ok [] := by
  refine ⟨?_, by decide, by decide, by decide⟩
  rintro ⟨n, p, h | h | h⟩
  · simp [GetTo, getIRIs_eq] at h
  · simp [GetCc, getIRIs_eq] at h
  · simp [GetBcc, getIRIs_eq] at h

/-! ## Further lemmas -/

/-- Appending through the handle of a counting factory leaves the count as it
is. -/
theorem foldl_counted_fst {σ : Type} (r : PropertyRef σ) (L : List (Option URL))
    (t : Nat × σ) :
    (L.foldl (fun s u => (s.1, r.AppendIRI u s.2)) t).1 = t.1 := by
  induction L generalizing t with
  | nil => rfl
  | cons u us ih =>
    rw [List.foldl_cons]
    exact ih (t.1, r.AppendIRI u t.2)

/-- Claim C11.  `appendIRIs` panics exactly when the list is non-empty and the
factory yields no container (the panic is "prop not set"); on a non-empty
list the factory is invoked exactly once (a counting factory is one call
further); with a container present the call returns normally and the
identifiers are appended through it one by one in input order: on a node,
the container then ends with one bare IRI entry per identifier. -/
theorem appendIRIs_panics_iff_factory_nil {σ : Type}
    (getProp : σ → Option (PropertyRef σ) × σ) (L : List (Option URL)) (s : σ) :
    ((∃ p, (appendIRIs getProp L s).1 = .error p) ↔ (L ≠ [] ∧ (getProp s).1 = none))
    ∧ (L ≠ [] → (getProp s).1 = none →
        appendIRIs getProp L s = (.error (Panic.str "prop not set"), (getProp s).2))
    ∧ (L ≠ [] → ∀ k : Nat, (appendIRIs (countedFactory getProp) L (k, s)).2.1 = k + 1)
    ∧ (∀ prop, L ≠ [] → (getProp s).1 = some prop →
        appendIRIs getProp L s
          = (.ok (), L.foldl (fun s u => prop.AppendIRI u s) (getProp s).2))
    ∧ (∀ n : Node, L ≠ [] →
        (AppendTo n L).1 = .ok ()
        ∧ (AppendTo n L).2.GetActivityStreamsTo
            = some ⟨entriesOf n.GetActivityStreamsTo ++ L.map Value.iri⟩) := by
  have hlen : L ≠ [] → ¬ (L.length = 0) := fun h h0 => h (List.length_eq_zero.mp h0)
  refine ⟨?_, ?_, ?_, ?_, ?_⟩
  · unfold appendIRIs
    by_cases hL : L = []
    · subst hL; simp
    · rcases hg : getProp s with ⟨o, s1⟩
      cases o <;> simp [hlen hL, hL]
  · intro hL hn
    unfold appendIRIs
    rcases hg : getProp s with ⟨o, s1⟩
    rw [hg] at hn
    simp only at hn
    subst hn
    simp [hlen hL]
  · intro hL k
    unfold appendIRIs
    simp only [hlen hL, if_false]
    rcases hg : getProp s with ⟨o, s1⟩
    cases o with
    | none => simp [countedFactory, hg]
    | some r =>
      simp only [countedFactory, hg, Option.map_some']
      exact foldl_counted_fst r L (k + 1, s1)
  · intro prop hL hp
    unfold appendIRIs
    rcases hg : getProp s with ⟨o, s1⟩
    rw [hg] at hp
    simp only at hp
    subst hp
    simp [hlen hL]
  · intro n hL
    rw [AppendTo_eq]
    simp [hL, Node.GetActivityStreamsTo, Node.SetActivityStreamsTo]

/-- Instances of claim C11: a factory that yields no container makes a
one-element append panic and leaves an empty append alone; the factory of
`AppendTo` on a fresh node returns normally. -/
theorem appendIRIs_panics_iff_factory_nil_witness :
    appendIRIs (fun s : Unit => (none, s)) [some "https://a.example/u1"] ()
        = (.error (Panic.str "prop not set"), ())
    ∧ (appendIRIs (countedFactory (fun s : Unit => (none, s)))
        [some "https://a.example/u1", some "https://b.example/u2"] (0, ())).2.1 = 1
    ∧ ¬ (∃ p, (appendIRIs (fun s : Unit => (none, s)) [] ()).1 = .error p)
    ∧ (AppendTo (Node.fresh "Note") [some "https://a.example/u1"]).2.GetActivityStreamsTo
        = some ⟨[Value.iri (some "https://a.example/u1")]⟩ :=
  ⟨(appendIRIs_panics_iff_factory_nil (fun s : Unit => (none, s))
      [some "https://a.example/u1"] ()).2.1 (by decide) rfl,
    (appendIRIs_panics_iff_factory_nil (fun s : Unit => (none, s))
      [some "https://a.example/u1", some "https://b.example/u2"] ()).2.2.1 (by decide) 0,
    fun h => ((appendIRIs_panics_iff_factory_nil (fun s : Unit => (none, s)) [] ()).1.mp h).1
      rfl,
    ((appendIRIs_panics_iff_factory_nil (fun s : Unit => (none, s))
      [some "https://a.example/u1"] ()).2.2.2.2 (Node.fresh "Note") (by decide)).2⟩

/-- Claim C12.  Each of Inbox, Outbox, Following, Followers and Featured
meets the contract of an IRI-only property: the getter returns `u` exactly
when the container is present in bare-IRI form holding `u`, returns absent
when the property is unset or holds an embedded object (with or without an
identity of its own), and after the setter, from any prior state, returns
the identifier set. -/
theorem iri_only_properties_contract :
    IRIOnlyContract Node.GetActivityStreamsInbox GetInbox SetInbox
    ∧ IRIOnlyContract Node.GetActivityStreamsOutbox GetOutbox SetOutbox
    ∧ IRIOnlyContract Node.GetActivityStreamsFollowing GetFollowing SetFollowing
    ∧ IRIOnlyContract Node.GetActivityStreamsFollowers GetFollowers SetFollowers
    ∧ IRIOnlyContract Node.GetTootFeatured GetFeatured SetFeatured := by
  refine ⟨?_, ?_, ?_, ?_, ?_⟩
  · refine ⟨?_, ?_, ?_, ?_⟩
    · intro n u
      unfold GetInbox
      cases h : n.GetActivityStreamsInbox with
      | none => simp
      | some v =>
        cases v with
        | iri w => cases w <;> simp [Value.IsIRI, Value.GetIRI]
        | _ => simp [Value.IsIRI]
    · intro n h
      unfold GetInbox
      rw [h]
    · intro n t h
      unfold GetInbox
      rw [h]
      rfl
    · intro n u
      unfold GetInbox SetInbox
      cases h : n.GetActivityStreamsInbox <;> cases u <;> rfl
  · refine ⟨?_, ?_, ?_, ?_⟩
    · intro n u
      unfold GetOutbox
      cases h : n.GetActivityStreamsOutbox with
      | none => simp
      | some v =>
        cases v with
        | iri w => cases w <;> simp [Value.IsIRI, Value.GetIRI]
        | _ => simp [Value.IsIRI]
    · intro n h
      unfold GetOutbox
      rw [h]
    · intro n t h
      unfold GetOutbox
      rw [h]
      rfl
    · intro n u
      unfold GetOutbox SetOutbox
      cases h : n.GetActivityStreamsOutbox <;> cases u <;> rfl
  · refine ⟨?_, ?_, ?_, ?_⟩
    · intro n u
      unfold GetFollowing
      cases h : n.GetActivityStreamsFollowing with
      | none => simp
      | some v =>
        cases v with
        | iri w => cases w <;> simp [Value.IsIRI, Value.GetIRI]
        | _ => simp [Value.IsIRI]
    · intro n h
      unfold GetFollowing
      rw [h]
    · intro n t h
      unfold GetFollowing
      rw [h]
      rfl
    · intro n u
      unfold GetFollowing SetFollowing
      cases h : n.GetActivityStreamsFollowing <;> cases u <;> rfl
  · refine ⟨?_, ?_, ?_, ?_⟩
    · intro n u
      unfold GetFollowers
      cases h : n.GetActivityStreamsFollowers with
      | none => simp
      | some v =>
        cases v with
        | iri w => cases w <;> simp [Value.IsIRI, Value.GetIRI]
        | _ => simp [Value.IsIRI]
    · intro n h
      unfold GetFollowers
      rw [h]
    · intro n t h
      unfold GetFollowers
      rw [h]
      rfl
    · intro n u
      unfold GetFollowers SetFollowers
      cases h : n.GetActivityStreamsFollowers <;> cases u <;> rfl
  · refine ⟨?_, ?_, ?_, ?_⟩
    · intro n u
      unfold GetFeatured
      cases h : n.GetTootFeatured with
      | none => simp
      | some v =>
        cases v with
        | iri w => cases w <;> simp [Value.IsIRI, Value.GetIRI]
        | _ => simp [Value.IsIRI]
    · intro n h
      unfold GetFeatured
      rw [h]
    · intro n t h
      unfold GetFeatured
      rw [h]
      rfl
    · intro n u
      unfold GetFeatured SetFeatured
      cases h : n.GetTootFeatured <;> cases u <;> rfl

/-- Instances of claim C12: an inbox set on a fresh node is read back; an
inbox held as an embedded collection with an identity of its own reads as
absent, and reads as the identifier once `SetInbox` has overwritten it. -/
theorem iri_only_properties_contract_witness :
    GetInbox (SetInbox (Node.fresh "Person") (some "https://a.example/inbox"))
        = some "https://a.example/inbox"
    ∧ GetInbox ((Node.fresh "Person").SetActivityStreamsInbox
        (some (Value.type ⟨"OrderedCollection", some ⟨some "https://a.example/inbox"⟩⟩)))
        = none
    ∧ GetInbox (SetInbox ((Node.fresh "Person").SetActivityStreamsInbox
        (some (Value.type ⟨"OrderedCollection", some ⟨some "https://a.example/inbox"⟩⟩)))
          (some "https://a.example/in2"))
        = some "https://a.example/in2"
    ∧ GetFeatured (Node.fresh "Person") = none :=
  ⟨iri_only_properties_contract.1.2.2.2 _ _,
    iri_only_properties_contract.1.2.2.1 _ _ rfl,
    iri_only_properties_contract.1.2.2.2 _ _,
    iri_only_properties_contract.2.2.2.2.2.1 _ rfl⟩

/-- Claim C13.  Identity round trip: on every node, and on every embedded
node, whatever identity container it had (none, empty or set),
`GetJSONLDId` after `SetJSONLDId` returns the identifier set (the nil
pointer reads back as absent); on a node whose identity is unset
`GetJSONLDId` returns absent. -/
theorem JSONLDId_set_then_get (n : Node) (u : Option URL) :
    GetJSONLDId (SetJSONLDId n u) = u
    ∧ (∀ v : URL, GetJSONLDId (SetJSONLDId n (some v)) = some v)
    ∧ (∀ t : VocabType, GetJSONLDId (SetJSONLDId t u) = u)
    ∧ (WithJSONLDId.GetJSONLDId n = none → GetJSONLDId n = none)
    ∧ (WithJSONLDId.GetJSONLDId (SetJSONLDId n u)
        = some (JSONLDIdProperty.mk u)) := by
  refine ⟨?_, ?_, ?_, ?_, ?_⟩
  · unfold GetJSONLDId SetJSONLDId
    cases h : (WithJSONLDId.GetJSONLDId n : Option JSONLDIdProperty) <;> cases u <;> rfl
  · intro v
    unfold GetJSONLDId SetJSONLDId
    cases h : (WithJSONLDId.GetJSONLDId n : Option JSONLDIdProperty) <;> rfl
  · intro t
    unfold GetJSONLDId SetJSONLDId
    cases h : (WithJSONLDId.GetJSONLDId t : Option JSONLDIdProperty) <;> cases u <;> rfl
  · intro h
    unfold GetJSONLDId
    rw [h]
  · unfold SetJSONLDId
    cases h : (WithJSONLDId.GetJSONLDId n : Option JSONLDIdProperty) <;> rfl

/-- Instances of claim C13: an identity set on a fresh node, and one set over
an earlier identity, are read back; the fresh node has none. -/
theorem JSONLDId_set_then_get_witness :
    GetJSONLDId (SetJSONLDId (Node.fresh "Note") (some "http://x.example/id"))
        = some "http://x.example/id"
    ∧ GetJSONLDId (SetJSONLDId (SetJSONLDId (Node.fresh "Note") (some "http://x.example/id"))
        (some "http://x.example/other")) = some "http://x.example/other"
    ∧ GetJSONLDId (Node.fresh "Note") = none :=
  ⟨(JSONLDId_set_then_get _ _).1, (JSONLDId_set_then_get _ _).1,
    (JSONLDId_set_then_get (Node.fresh "Note") none).2.2.2.1 rfl⟩

/-- Extraction after an append of non-nil identifiers: what was extracted
before, followed by the identifiers. -/
theorem getIRIs_append_iri (c : Option (Property Value)) (L : List URL) :
    getIRIs (some (⟨entriesOf c ++ (L.map some).map Value.iri⟩ : Property Value))
      = (getIRIs c).map (fun before => before ++ L.map some) := by
  rw [getIRIs_eq, getIRIs_eq]
  show Except.ok (((entriesOf c ++ (L.map some).map Value.iri).filterMap
    entryIdentifier).map some) = _
  rw [List.filterMap_append, filterMap_iri_some, List.map_append]
  rfl

/-- A getter that is `getIRIs` of its container, read after the append to
that container. -/
theorem get_after_append (G : Node → Except Panic (List (Option URL)))
    (get : Node → Option (Property Value)) (set : Node → Option (Property Value) → Node)
    (hG : ∀ m, G m = getIRIs (get m)) (hgs : ∀ n p, get (set n p) = p)
    (n : Node) (L : List URL) :
    G (if L.map some = [] then n
        else set n (some ⟨entriesOf (get n) ++ (L.map some).map Value.iri⟩))
      = (G n).map (fun before => before ++ L.map some) := by
  cases L with
  | nil =>
    simp only [List.map_nil, if_true, List.append_nil, hG, getIRIs_eq]
    rfl
  | cons u us =>
    simp only [List.map_cons, reduceCtorEq, if_false, hG, hgs]
    exact getIRIs_append_iri (get n) (u :: us)

/-- Two appends in a row leave the node that one append of the concatenation
leaves. -/
theorem append_twice (get : Node → Option (Property Value))
    (set : Node → Option (Property Value) → Node)
    (hgs : ∀ n p, get (set n p) = p) (hss : ∀ n p q, set (set n p) q = set n q)
    (n : Node) (A B : List (Option URL)) :
    (if B = [] then (if A = [] then n
          else set n (some ⟨entriesOf (get n) ++ A.map Value.iri⟩))
      else set (if A = [] then n
          else set n (some ⟨entriesOf (get n) ++ A.map Value.iri⟩))
        (some ⟨entriesOf (get (if A = [] then n
          else set n (some ⟨entriesOf (get n) ++ A.map Value.iri⟩))) ++ B.map Value.iri⟩))
      = (if A ++ B = [] then n
          else set n (some ⟨entriesOf (get n) ++ (A ++ B).map Value.iri⟩)) := by
  by_cases hA : A = [] <;> by_cases hB : B = []
  · simp [hA, hB]
  · simp [hA, hB]
  · simp [hA, hB]
  · simp [hA, hB, hgs, hss, entriesOf, List.append_assoc]

/-- Claim C14.  For To, Cc, Bcc, Actor, AttributedTo and InReplyTo, on every
node, whatever the container already holds: the getter after an append of
identifiers returns what it returned before followed by the identifiers, in
order, nothing dropped, reordered or de-duplicated; and appending one list
then another reads the same as appending their concatenation at once. -/
theorem append_extends_get (n : Node) (L L1 L2 : List URL) :
    GetTo (AppendTo n (L.map some)).2
        = (GetTo n).map (fun before => before ++ L.map some)
    ∧ GetCc (AppendCc n (L.map some)).2
        = (GetCc n).map (fun before => before ++ L.map some)
    ∧ GetBcc (AppendBcc n (L.map some)).2
        = (GetBcc n).map (fun before => before ++ L.map some)
    ∧ GetActorIRIs (AppendActorIRIs n (L.map some)).2
        = (GetActorIRIs n).map (fun before => before ++ L.map some)
    ∧ GetAttributedTo (AppendAttributedTo n (L.map some)).2
        = (GetAttributedTo n).map (fun before => before ++ L.map some)
    ∧ GetInReplyTo (AppendInReplyTo n (L.map some)).2
        = (GetInReplyTo n).map (fun before => before ++ L.map some)
    ∧ GetTo (AppendTo (AppendTo n (L1.map some)).2 (L2.map some)).2
        = GetTo (AppendTo n ((L1 ++ L2).map some)).2
    ∧ GetCc (AppendCc (AppendCc n (L1.map some)).2 (L2.map some)).2
        = GetCc (AppendCc n ((L1 ++ L2).map some)).2
    ∧ GetBcc (AppendBcc (AppendBcc n (L1.map some)).2 (L2.map some)).2
        = GetBcc (AppendBcc n ((L1 ++ L2).map some)).2
    ∧ GetActorIRIs (AppendActorIRIs (AppendActorIRIs n (L1.map some)).2 (L2.map some)).2
        = GetActorIRIs (AppendActorIRIs n ((L1 ++ L2).map some)).2
    ∧ GetAttributedTo (AppendAttributedTo (AppendAttributedTo n (L1.map some)).2 (L2.map some)).2
        = GetAttributedTo (AppendAttributedTo n ((L1 ++ L2).map some)).2
    ∧ GetInReplyTo (AppendInReplyTo (AppendInReplyTo n (L1.map some)).2 (L2.map some)).2
        = GetInReplyTo (AppendInReplyTo n ((L1 ++ L2).map some)).2 := by
  refine ⟨?_, ?_, ?_, ?_, ?_, ?_, ?_, ?_, ?_, ?_, ?_, ?_⟩
  · rw [AppendTo_eq]
    exact get_after_append GetTo Node.GetActivityStreamsTo Node.SetActivityStreamsTo
      (fun _ => rfl) (fun _ _ => rfl) n L
  · rw [AppendCc_eq]
    exact get_after_append GetCc Node.GetActivityStreamsCc Node.SetActivityStreamsCc
      (fun _ => rfl) (fun _ _ => rfl) n L
  · rw [AppendBcc_eq]
    exact get_after_append GetBcc Node.GetActivityStreamsBcc Node.SetActivityStreamsBcc
      (fun _ => rfl) (fun _ _ => rfl) n L
  · rw [AppendActorIRIs_eq]
    exact get_after_append GetActorIRIs Node.GetActivityStreamsActor Node.SetActivityStreamsActor
      (fun _ => rfl) (fun _ _ => rfl) n L
  · rw [AppendAttributedTo_eq]
    exact get_after_append GetAttributedTo Node.GetActivityStreamsAttributedTo Node.SetActivityStreamsAttributedTo
      (fun _ => rfl) (fun _ _ => rfl) n L
  · rw [AppendInReplyTo_eq]
    exact get_after_append GetInReplyTo Node.GetActivityStreamsInReplyTo Node.SetActivityStreamsInReplyTo
      (fun _ => rfl) (fun _ _ => rfl) n L
  · rw [AppendTo_eq, AppendTo_eq, AppendTo_eq, List.map_append]
    exact congrArg GetTo
      (append_twice Node.GetActivityStreamsTo Node.SetActivityStreamsTo
        (fun _ _ => rfl) (fun _ _ _ => rfl) n _ _)
  · rw [AppendCc_eq, AppendCc_eq, AppendCc_eq, List.map_append]
    exact congrArg GetCc
      (append_twice Node.GetActivityStreamsCc Node.SetActivityStreamsCc
        (fun _ _ => rfl) (fun _ _ _ => rfl) n _ _)
  · rw [AppendBcc_eq, AppendBcc_eq, AppendBcc_eq, List.map_append]
    exact congrArg GetBcc
      (append_twice Node.GetActivityStreamsBcc Node.SetActivityStreamsBcc
        (fun _ _ => rfl) (fun _ _ _ => rfl) n _ _)
  · rw [AppendActorIRIs_eq, AppendActorIRIs_eq, AppendActorIRIs_eq, List.map_append]
    exact congrArg GetActorIRIs
      (append_twice Node.GetActivityStreamsActor Node.SetActivityStreamsActor
        (fun _ _ => rfl) (fun _ _ _ => rfl) n _ _)
  · rw [AppendAttributedTo_eq, AppendAttributedTo_eq, AppendAttributedTo_eq, List.map_append]
    exact congrArg GetAttributedTo
      (append_twice Node.GetActivityStreamsAttributedTo Node.SetActivityStreamsAttributedTo
        (fun _ _ => rfl) (fun _ _ _ => rfl) n _ _)
  · rw [AppendInReplyTo_eq, AppendInReplyTo_eq, AppendInReplyTo_eq, List.map_append]
    exact congrArg GetInReplyTo
      (append_twice Node.GetActivityStreamsInReplyTo Node.SetActivityStreamsInReplyTo
        (fun _ _ => rfl) (fun _ _ _ => rfl) n _ _)

/-- An instance of claim C14: a To container holding an embedded node with an
identity, a bare IRI and an embedded node without identity; appending the
same bare IRI again and a new one extends what `GetTo` returned, the
duplicate kept. -/
theorem append_extends_get_witness :
    GetTo (AppendTo ((Node.fresh "Note").SetActivityStreamsTo
        (some ⟨[Value.type ⟨"Person", some ⟨some "https://c.example/c1"⟩⟩,
          Value.iri (some "https://d.example/d2"), Value.type ⟨"Person", none⟩]⟩))
        [some "https://d.example/d2", some "https://a.example/u1"]).2
      = .ok [some "https://c.example/c1", some "https://d.example/d2",
          some "https://d.example/d2", some "https://a.example/u1"] :=
  (append_extends_get ((Node.fresh "Note").SetActivityStreamsTo
        (some ⟨[Value.type ⟨"Person", some ⟨some "https://c.example/c1"⟩⟩,
          Value.iri (some "https://d.example/d2"), Value.type ⟨"Person", none⟩]⟩))
      ["https://d.example/d2", "https://a.example/u1"] [] []).1

/-- A filter-map keeps the length exactly when no element is dropped. -/
theorem length_filterMap_eq_iff {α β : Type} (f : α → Option β) (l : List α) :
    (l.filterMap f).length = l.length ↔ ∀ e ∈ l, (f e).isSome = true := by
  induction l with
  | nil => simp
  | cons x xs ih =>
    cases h : f x with
    | none =>
      have hle := List.length_filterMap_le f xs
      simp only [List.filterMap_cons, h, List.length_cons, List.mem_cons, forall_eq_or_imp,
        Option.isSome_none]
      constructor
      · intro he; omega
      · intro he; exact absurd he.1 (by simp)
    | some y =>
      simp only [List.filterMap_cons, h, List.length_cons, List.mem_cons, forall_eq_or_imp,
        Option.isSome_some, true_and, Nat.add_right_cancel_iff]
      exact ih

/-- Claim C17.  Each entry contributes at most one identifier: `getIRIs`
returns a list no longer than the container has entries, of the same length
exactly when every entry yields an identifier; and an entry that resolves to
an embedded node with an identity adds that identity once and nothing else,
also when the entry answers the bare-IRI calls as well. -/
theorem getIRIs_length_le_entries {T : Type} [TypeOrIRI T] (c : Option (Property T)) :
    (∃ ids, getIRIs c = .ok ids
      ∧ ids.length ≤ (entriesOf c).length
      ∧ (ids.length = (entriesOf c).length
          ↔ ∀ e ∈ entriesOf c, (entryIdentifier e).isSome = true))
    ∧ (∀ (e : T) (t : VocabType) (id : URL) (ids : List (Option URL)),
        TypeOrIRI.GetType e = some t → GetJSONLDId t = some id →
          getIRIs.body e ids = ids ++ [some id]
          ∧ getIRIs (some ⟨[e]⟩) = .ok [some id]) := by
  refine ⟨⟨_, getIRIs_eq c, ?_, ?_⟩, ?_⟩
  · rw [List.length_map]
    exact List.length_filterMap_le _ _
  · rw [List.length_map]
    exact length_filterMap_eq_iff _ _
  · intro e t id ids ht hid
    have hb : ∀ l, getIRIs.body e l = l ++ [some id] := by
      intro l
      rw [getIRIs_body_eq]
      simp [entryIdentifier, ht, hid]
    refine ⟨hb ids, ?_⟩
    rw [getIRIs_eq]
    simp [entriesOf, entryIdentifier, ht, hid]

/-- Instances of claim C17: of three entries one without identity, two
identifiers; an embedded node with an identity counts once. -/
theorem getIRIs_length_le_entries_witness :
    (∃ ids, getIRIs (some (⟨[Value.type ⟨"Person", some ⟨some "https://c.example/c1"⟩⟩,
          Value.iri (some "https://d.example/d2"), Value.type ⟨"Person", none⟩]⟩
          : Property Value)) = .ok ids ∧ ids.length ≤ 3)
    ∧ getIRIs (some (⟨[Value.type ⟨"Person", some ⟨some "https://c.example/c1"⟩⟩]⟩
          : Property Value)) = .ok [some "https://c.example/c1"] :=
  ⟨(getIRIs_length_le_entries (some (⟨[Value.type ⟨"Person",
      some ⟨some "https://c.example/c1"⟩⟩, Value.iri (some "https://d.example/d2"),
      Value.type ⟨"Person", none⟩]⟩ : Property Value))).1.imp
      (fun _ h => ⟨h.1, h.2.1⟩),
    ((getIRIs_length_le_entries (none : Option (Property Value))).2
      (Value.type ⟨"Person", some ⟨some "https://c.example/c1"⟩⟩) _ _ [] rfl rfl).2⟩

/-- Claim C18.  `getIRIs` never returns a nil identifier: for every
container every element of the result is a non-nil pointer; a bare-IRI entry
whose pointer is nil and an embedded node whose identity is nil are omitted,
so `AppendTo` of the nil pointer is not read back by `GetTo`. -/
theorem getIRIs_no_nil {T : Type} [TypeOrIRI T] (c : Option (Property T)) :
    (∃ ids, getIRIs c = .ok ids ∧ ∀ id ∈ ids, id ≠ none)
    ∧ getIRIs (some (⟨[Value.iri none]⟩ : Property Value)) = .ok []
    ∧ (∀ tn : String,
        getIRIs (some (⟨[Value.type ⟨tn, some ⟨none⟩⟩]⟩ : Property Value)) = .ok [])
    ∧ (∀ n : Node, n.GetActivityStreamsTo = none → GetTo (AppendTo n [none]).2 = .ok [])
    ∧ (∀ n : Node, GetTo (AppendTo n [none]).2 = GetTo n) := by
  refine ⟨⟨_, getIRIs_eq c, ?_⟩, by decide, ?_, ?_, ?_⟩
  · intro id hid
    simp only [List.mem_map] at hid
    obtain ⟨u, _, rfl⟩ := hid
    simp
  · intro tn
    rw [getIRIs_eq]
    rfl
  · intro n h
    have h2 : n.ActivityStreamsTo = none := h
    rw [AppendTo_eq]
    simp only [reduceCtorEq, if_false, h2, entriesOf, List.nil_append, List.map_cons,
      List.map_nil, GetTo, Node.GetActivityStreamsTo, Node.SetActivityStreamsTo]
    decide
  · intro n
    rw [AppendTo_eq]
    simp only [reduceCtorEq, if_false, List.map_cons, List.map_nil, GetTo,
      Node.GetActivityStreamsTo, Node.SetActivityStreamsTo, getIRIs_eq]
    congr 2
    show List.filterMap entryIdentifier (entriesOf n.ActivityStreamsTo ++ [Value.iri none]) = _
    rw [List.filterMap_append]
    simp [entryIdentifier, TypeOrIRI.GetType, TypeOrIRI.IsIRI, Value.GetType, Value.IsIRI]

/-- An instance of claim C18: after `AppendTo` of a nil pointer between two
identifiers on a fresh node, `GetTo` returns the two identifiers. -/
theorem getIRIs_no_nil_witness :
    GetTo (AppendTo (Node.fresh "Note") [none]).2 = .ok []
    ∧ GetTo (AppendTo (Node.fresh "Note")
        [some "https://a.example/u1", none, some "https://b.example/u2"]).2
      = .ok [some "https://a.example/u1", some "https://b.example/u2"] :=
  ⟨(getIRIs_no_nil (none : Option (Property Value))).2.2.2.1 (Node.fresh "Note") rfl,
    by decide⟩

/-- A loop that appends to its result the entries a rule keeps is the
filter-map of the rule. -/
theorem foldl_keep_eq {β : Type} (rule : Value → Option β) (l : List Value) (acc : List β) :
    l.foldl (keepLiteral rule) acc = acc ++ l.filterMap rule := by
  induction l generalizing acc with
  | nil => simp
  | cons e l ih =>
    rw [List.foldl_cons, ih]
    cases h : rule e <;> simp [List.filterMap_cons, h, keepLiteral]

/-- A loop over the indices of a container whose step, at every index within
bounds, returns `f` of the accumulator and the entry there, is the left fold
of `f` over the entries, and returns. -/
theorem range_foldlM_step {T β : Type} (prop : Property T)
    (step : β → Nat → Except Panic β) (f : β → T → β)
    (hstep : ∀ (a : β) (i : Nat) (h : i < prop.properties.length),
      step a i = .ok (f a prop.properties[i]))
    (init : β) :
    (List.range prop.Len).foldlM step init = Except.ok (prop.properties.foldl f init) := by
  have key : ∀ n, n ≤ prop.properties.length →
      (List.range n).foldlM step init
        = Except.ok ((prop.properties.take n).foldl f init) := by
    intro n
    induction n with
    | zero => intro _; rfl
    | succ k ih =>
      intro hk
      have hk1 : k < prop.properties.length := hk
      rw [List.range_succ, List.foldlM_append, ih (Nat.le_of_lt hk1)]
      rw [List.take_succ, List.foldl_append]
      simp [hstep _ k hk1, List.getElem?_eq_getElem hk1, bind, Except.bind, pure,
        Except.pure]
  have := key prop.properties.length (Nat.le_refl _)
  simpa [Property.Len] using this

theorem GetURL_eq (n : Node) :
    GetURL n = .ok ((entriesOf n.GetActivityStreamsUrl).filterMap urlLiteral) := by
  unfold GetURL
  cases h : n.GetActivityStreamsUrl with
  | none => rfl
  | some urlProp =>
    by_cases h0 : urlProp.Len = 0
    · have : urlProp.properties = [] := List.length_eq_zero.mp h0
      simp [h0, entriesOf, this]
    · simp only [h0, if_false]
      refine (range_foldlM_step urlProp _
        (keepLiteral urlLiteral)
        (by
          intro a i hi
          simp only [At_of_lt urlProp i hi]
          cases urlProp.properties[i] with
          | anyURI u => cases u <;> rfl
          | _ => rfl) []).trans ?_
      rw [foldl_keep_eq]
      simp [entriesOf]

theorem GetClosed_eq (n : Node) :
    GetClosed n = .ok ((entriesOf n.GetActivityStreamsClosed).filterMap closedLiteral) := by
  unfold GetClosed
  cases h : n.GetActivityStreamsClosed with
  | none => rfl
  | some closedProp =>
    by_cases h0 : closedProp.Len = 0
    · have : closedProp.properties = [] := List.length_eq_zero.mp h0
      simp [h0, entriesOf, this]
    · simp only [h0, if_false]
      refine (range_foldlM_step closedProp _
        (keepLiteral closedLiteral)
        (by
          intro a i hi
          simp only [At_of_lt closedProp i hi]
          cases closedProp.properties[i] <;> rfl) []).trans ?_
      rw [foldl_keep_eq]
      simp [entriesOf]

/-- Appending literals one by one to a present container extends it by one
entry per literal, in order. -/
theorem foldl_append_literal {β : Type} (get : Node → Option (Property Value))
    (set : Node → Option (Property Value) → Node) (mk : β → Value)
    (hgs : ∀ n p, get (set n p) = p) (hss : ∀ n p q, set (set n p) q = set n q)
    (L : List β) (n : Node) (p : Property Value) :
    L.foldl (fun w v => set w ((get w).map (fun c => ⟨c.properties ++ [mk v]⟩)))
        (set n (some p))
      = set n (some ⟨p.properties ++ L.map mk⟩) := by
  induction L generalizing p with
  | nil => simp
  | cons v vs ih =>
    rw [List.foldl_cons]
    have h1 : set (set n (some p)) ((get (set n (some p))).map
        (fun c => (⟨c.properties ++ [mk v]⟩ : Property Value)))
        = set n (some ⟨p.properties ++ [mk v]⟩) := by
      simp [hgs, hss]
    rw [h1, ih]
    simp

theorem AppendURL_eq (n : Node) (L : List (Option URL)) :
    AppendURL n L = if L = [] then n else
      n.SetActivityStreamsUrl
        (some ⟨entriesOf n.GetActivityStreamsUrl ++ L.map Value.anyURI⟩) := by
  unfold AppendURL
  cases L with
  | nil => simp
  | cons u us =>
    simp only [List.length_cons, Nat.succ_ne_zero, if_false, reduceCtorEq]
    have key := foldl_append_literal Node.GetActivityStreamsUrl Node.SetActivityStreamsUrl
      Value.anyURI (fun _ _ => rfl) (fun _ _ _ => rfl) (u :: us) n
    cases hg : n.GetActivityStreamsUrl with
    | none =>
      simp only []
      exact (key NewProperty).trans (by simp [NewProperty, entriesOf])
    | some p =>
      simp only []
      have hn : n = n.SetActivityStreamsUrl (some p) := by rw [← hg]; rfl
      conv_lhs => rw [hn]
      exact (key p).trans (by simp [entriesOf])

theorem AppendClosed_eq (n : Node) (L : List Time) :
    AppendClosed n L = if L = [] then n else
      n.SetActivityStreamsClosed
        (some ⟨entriesOf n.GetActivityStreamsClosed ++ L.map Value.dateTime⟩) := by
  unfold AppendClosed
  cases L with
  | nil => simp
  | cons u us =>
    simp only [List.length_cons, Nat.succ_ne_zero, if_false, reduceCtorEq]
    have key := foldl_append_literal Node.GetActivityStreamsClosed
      Node.SetActivityStreamsClosed Value.dateTime (fun _ _ => rfl) (fun _ _ _ => rfl)
      (u :: us) n
    cases hg : n.GetActivityStreamsClosed with
    | none =>
      simp only []
      exact (key NewProperty).trans (by simp [NewProperty, entriesOf])
    | some p =>
      simp only []
      have hn : n = n.SetActivityStreamsClosed (some p) := by rw [← hg]; rfl
      conv_lhs => rw [hn]
      exact (key p).trans (by simp [entriesOf])

theorem filterMap_closedLiteral (L : List Time) :
    (L.map Value.dateTime).filterMap closedLiteral = L := by
  induction L with
  | nil => rfl
  | cons t ts ih => simp [List.filterMap_cons, closedLiteral, ih]

theorem filterMap_urlLiteral (L : List URL) :
    ((L.map some).map Value.anyURI).filterMap urlLiteral = L.map some := by
  induction L with
  | nil => rfl
  | cons t ts ih =>
    simp only [List.map_cons, List.filterMap_cons, urlLiteral]
    rw [ih]

/-- Claim C16.  `GetClosed` and `GetURL` return, in entry order, exactly the
entries that are literals of the expected kind (timestamp, URI) and omit
every other entry; on a node with the property unset, `AppendClosed` of a
non-empty list of times and then `GetClosed` returns the list, and likewise
`AppendURL` of URIs and then `GetURL`. -/
theorem closed_url_literals (n : Node) :
    GetClosed n = .ok ((entriesOf n.GetActivityStreamsClosed).filterMap closedLiteral)
    ∧ GetURL n = .ok ((entriesOf n.GetActivityStreamsUrl).filterMap urlLiteral)
    ∧ (∀ L : List Time, L ≠ [] → n.GetActivityStreamsClosed = none →
        GetClosed (AppendClosed n L) = .ok L)
    ∧ (∀ L : List URL, L ≠ [] → n.GetActivityStreamsUrl = none →
        GetURL (AppendURL n (L.map some)) = .ok (L.map some)) := by
  refine ⟨GetClosed_eq n, GetURL_eq n, ?_, ?_⟩
  · intro L hL h
    rw [AppendClosed_eq, GetClosed_eq]
    simp only [hL, if_false, h, entriesOf, List.nil_append]
    exact congrArg Except.ok (filterMap_closedLiteral L)
  · intro L hL h
    rw [AppendURL_eq, GetURL_eq]
    simp only [List.map_eq_nil_iff, hL, if_false, h, entriesOf, List.nil_append]
    exact congrArg Except.ok (filterMap_urlLiteral L)

/-- Instances of claim C16: two closing times, and two URLs, appended to a
fresh node are read back; of a Closed container holding a boolean, a time and
an IRI only the time is read. -/
theorem closed_url_literals_witness :
    GetClosed (AppendClosed (Node.fresh "Question") [⟨1704067200, 0⟩, ⟨1704153600, 0⟩])
        = .ok [⟨1704067200, 0⟩, ⟨1704153600, 0⟩]
    ∧ GetURL (AppendURL (Node.fresh "Note")
        [some "https://a.example/u1", some "https://b.example/u2"])
        = .ok [some "https://a.example/u1", some "https://b.example/u2"]
    ∧ GetClosed ((Node.fresh "Question").SetActivityStreamsClosed
        (some ⟨[Value.boolean true, Value.dateTime ⟨1704067200, 0⟩,
          Value.iri (some "https://a.example/u1")]⟩))
        = .ok [⟨1704067200, 0⟩] :=
  ⟨(closed_url_literals (Node.fresh "Question")).2.2.1 _ (by decide) rfl,
    (closed_url_literals (Node.fresh "Note")).2.2.2
      ["https://a.example/u1", "https://b.example/u2"] (by decide) rfl,
    (closed_url_literals _).1⟩

/-- A getter reads its own container only: taking another property's
container off the node does not change what it returns. -/
theorem read_clear (p q : PropName) (hq : q ≠ p) (n : Node) :
    q.read (n.clear p) = q.read n := by
  cases p <;> cases q <;> first | rfl | exact absurd rfl hq

/-- Every setter and appender leaves the node as it was but for the container
of its own property. -/
theorem apply_clear (m : Mutation) (n : Node) :
    (m.apply n).clear m.prop = n.clear m.prop := by
  cases m with
  | SetJSONLDId id =>
    show (SetJSONLDId n id).clear .JSONLDId = n.clear .JSONLDId
    unfold SetJSONLDId
    cases h : (WithJSONLDId.GetJSONLDId n : Option JSONLDIdProperty) <;> rfl
  | SetJSONLDIdStr parse id =>
    show (SetJSONLDIdStr parse n id).2.clear .JSONLDId = n.clear .JSONLDId
    unfold SetJSONLDIdStr
    cases hp : parse id with
    | error e => rfl
    | ok u =>
      show (SetJSONLDId n (some u)).clear .JSONLDId = n.clear .JSONLDId
      unfold SetJSONLDId
      cases h : (WithJSONLDId.GetJSONLDId n : Option JSONLDIdProperty) <;> rfl
  | AppendTo iri =>
    show (AppendTo n iri).2.clear _ = n.clear _
    rw [AppendTo_eq]
    by_cases h : iri = []
    · simp only [h, if_true]
    · simp only [h, if_false]
      rfl
  | AppendCc iri =>
    show (AppendCc n iri).2.clear _ = n.clear _
    rw [AppendCc_eq]
    by_cases h : iri = []
    · simp only [h, if_true]
    · simp only [h, if_false]
      rfl
  | AppendBcc iri =>
    show (AppendBcc n iri).2.clear _ = n.clear _
    rw [AppendBcc_eq]
    by_cases h : iri = []
    · simp only [h, if_true]
    · simp only [h, if_false]
      rfl
  | AppendActorIRIs iri =>
    show (AppendActorIRIs n iri).2.clear _ = n.clear _
    rw [AppendActorIRIs_eq]
    by_cases h : iri = []
    · simp only [h, if_true]
    · simp only [h, if_false]
      rfl
  | AppendAttributedTo iri =>
    show (AppendAttributedTo n iri).2.clear _ = n.clear _
    rw [AppendAttributedTo_eq]
    by_cases h : iri = []
    · simp only [h, if_true]
    · simp only [h, if_false]
      rfl
  | AppendInReplyTo iri =>
    show (AppendInReplyTo n iri).2.clear _ = n.clear _
    rw [AppendInReplyTo_eq]
    by_cases h : iri = []
    · simp only [h, if_true]
    · simp only [h, if_false]
      rfl
  | AppendObjectIRIs =>
    show (AppendObjectIRIs n).2.clear _ = n.clear _
    rw [AppendObjectIRIs_eq]
  | AppendURL url =>
    show (AppendURL n url).clear _ = n.clear _
    rw [AppendURL_eq]
    by_cases h : url = []
    · simp only [h, if_true]
    · simp only [h, if_false]
      rfl
  | AppendClosed closed =>
    show (AppendClosed n closed).clear _ = n.clear _
    rw [AppendClosed_eq]
    by_cases h : closed = []
    · simp only [h, if_true]
    · simp only [h, if_false]
      rfl
  | SetInbox iri =>
    show (SetInbox n iri).clear _ = n.clear _
    unfold SetInbox
    cases h : n.GetActivityStreamsInbox <;> rfl
  | SetOutbox iri =>
    show (SetOutbox n iri).clear _ = n.clear _
    unfold SetOutbox
    cases h : n.GetActivityStreamsOutbox <;> rfl
  | SetFollowing iri =>
    show (SetFollowing n iri).clear _ = n.clear _
    unfold SetFollowing
    cases h : n.GetActivityStreamsFollowing <;> rfl
  | SetFollowers iri =>
    show (SetFollowers n iri).clear _ = n.clear _
    unfold SetFollowers
    cases h : n.GetActivityStreamsFollowers <;> rfl
  | SetFeatured iri =>
    show (SetFeatured n iri).clear _ = n.clear _
    unfold SetFeatured
    cases h : n.GetTootFeatured <;> rfl
  | SetPublished t =>
    show (SetPublished n t).clear _ = n.clear _
    unfold SetPublished
    cases h : n.GetActivityStreamsPublished <;> rfl
  | SetEndTime t =>
    show (SetEndTime n t).clear _ = n.clear _
    unfold SetEndTime
    cases h : n.GetActivityStreamsEndTime <;> rfl
  | SetVotersCount count =>
    show (SetVotersCount n count).clear _ = n.clear _
    unfold SetVotersCount
    cases h : n.GetTootVotersCount <;> rfl
  | SetDiscoverable b =>
    show (SetDiscoverable n b).clear _ = n.clear _
    unfold SetDiscoverable
    cases h : n.GetTootDiscoverable <;> rfl

/-- Claim C19.  Every setter and appender touches only its own property: the
node after the call is the node before it but for the container of that
property, and every getter of another property returns what it returned
before.  `SetFollowing` sets what `GetFollowing` returns and leaves
`GetFollowers` alone, `SetFollowers` sets what `GetFollowers` returns and
leaves `GetFollowing` alone. -/
theorem mutation_touches_own_property (m : Mutation) (n : Node) :
    (m.apply n).clear m.prop = n.clear m.prop
    ∧ (∀ q : PropName, q ≠ m.prop → q.read (m.apply n) = q.read n)
    ∧ (∀ u, GetFollowing (SetFollowing n u) = u
        ∧ GetFollowers (SetFollowing n u) = GetFollowers n)
    ∧ (∀ u, GetFollowers (SetFollowers n u) = u
        ∧ GetFollowing (SetFollowers n u) = GetFollowing n) := by
  have hframe : ∀ q : PropName, q ≠ m.prop → q.read (m.apply n) = q.read n := by
    intro q hq
    rw [← read_clear m.prop q hq (m.apply n), apply_clear, read_clear m.prop q hq n]
  refine ⟨apply_clear m n, hframe, ?_, ?_⟩
  · intro u
    constructor
    · unfold GetFollowing SetFollowing
      cases h : n.GetActivityStreamsFollowing <;> cases u <;> rfl
    · unfold SetFollowing
      cases h : n.GetActivityStreamsFollowing <;> rfl
  · intro u
    constructor
    · unfold GetFollowers SetFollowers
      cases h : n.GetActivityStreamsFollowers <;> cases u <;> rfl
    · unfold SetFollowers
      cases h : n.GetActivityStreamsFollowers <;> rfl

/-- Instances of claim C19: on a node with Followers set, `SetFollowing`
leaves `GetFollowers` and sets `GetFollowing`; `AppendTo` leaves `GetCc`
empty. -/
theorem mutation_touches_own_property_witness :
    GetFollowers (SetFollowing (SetFollowers (Node.fresh "Person")
        (some "https://a.example/followers")) (some "https://a.example/following"))
      = some "https://a.example/followers"
    ∧ GetFollowing (SetFollowing (SetFollowers (Node.fresh "Person")
        (some "https://a.example/followers")) (some "https://a.example/following"))
      = some "https://a.example/following"
    ∧ PropName.Cc.read (AppendTo (Node.fresh "Note") [some "https://a.example/u1"]).2
      = PropName.Cc.read (Node.fresh "Note") :=
  ⟨((mutation_touches_own_property (Mutation.SetFollowing none)
      (SetFollowers (Node.fresh "Person") (some "https://a.example/followers"))).2.2.1
      (some "https://a.example/following")).2,
    ((mutation_touches_own_property (Mutation.SetFollowing none)
      (SetFollowers (Node.fresh "Person") (some "https://a.example/followers"))).2.2.1
      (some "https://a.example/following")).1,
    (mutation_touches_own_property (Mutation.AppendTo [some "https://a.example/u1"])
      (Node.fresh "Note")).2.1 PropName.Cc (by decide)⟩


/-! ## The getters as reads -/

theorem NodeM_bind_read {α β : Type} (f : Node → α) (k : α → NodeM β) (n : Node) :
    (NodeM.read f >>= k) n = k (f n) n := rfl

/-- A loop over the indices of a container, run on a node, whose step at
every index within bounds returns `f` of the accumulator and the entry there
and leaves the node alone, returns the left fold of `f` over the entries and
leaves the node alone. -/
theorem NodeM_range_foldlM_step {T β : Type} (prop : Property T)
    (step : β → Nat → NodeM β) (f : β → T → β)
    (hstep : ∀ (a : β) (i : Nat) (h : i < prop.properties.length) (n : Node),
      step a i n = .ok (f a prop.properties[i], n))
    (init : β) (n : Node) :
    (List.range prop.Len).foldlM step init n
      = .ok (prop.properties.foldl f init, n) := by
  have key : ∀ (len s : Nat) (init : β), s + len = prop.properties.length →
      (List.range' s len).foldlM step init n
        = .ok ((prop.properties.drop s).foldl f init, n) := by
    intro len
    induction len with
    | zero =>
      intro s init hs
      have : prop.properties.drop s = [] := List.drop_eq_nil_of_le (by omega)
      rw [this]
      rfl
    | succ k ih =>
      intro s init hs
      have hlt : s < prop.properties.length := by omega
      rw [List.range'_succ, List.foldlM_cons]
      show NodeM.bind (step init s) _ n = _
      unfold NodeM.bind
      rw [hstep init s hlt n]
      simp only []
      rw [ih (s + 1) _ (by omega), List.drop_eq_getElem_cons hlt, List.foldl_cons]
  have := key prop.properties.length 0 init (by omega)
  rw [List.range_eq_range']
  simpa [Property.Len] using this

theorem InPlace_getIRIs_eq {T : Type} [TypeOrIRI T] (c : Option (Property T)) (n : Node) :
    InPlace.getIRIs c n = .ok (((entriesOf c).filterMap entryIdentifier).map some, n) := by
  cases c with
  | none => rfl
  | some prop =>
    unfold InPlace.getIRIs
    by_cases h0 : prop.Len = 0
    · have : prop.properties = [] := List.length_eq_zero.mp h0
      simp only [h0, if_true, entriesOf, this]
      rfl
    · simp only [h0, if_false]
      refine (NodeM_range_foldlM_step prop _ (fun ids e => getIRIs.body e ids)
        (by
          intro a i hi m
          show (NodeM.call (prop.At i) >>= fun e => Pure.pure (getIRIs.body e a)) m = _
          rw [At_of_lt prop i hi]
          rfl) [] n).trans ?_
      rw [foldl_body_eq]
      simp [entriesOf]

theorem InPlace_GetURL_eq (n : Node) :
    InPlace.GetURL n
      = .ok ((entriesOf n.GetActivityStreamsUrl).filterMap urlLiteral, n) := by
  unfold InPlace.GetURL
  rw [NodeM_bind_read]
  cases h : n.GetActivityStreamsUrl with
  | none => rfl
  | some urlProp =>
    by_cases h0 : urlProp.Len = 0
    · have : urlProp.properties = [] := List.length_eq_zero.mp h0
      simp only [h0, if_true, entriesOf, this]
      rfl
    · simp only [h0, if_false]
      refine (NodeM_range_foldlM_step urlProp _ (keepLiteral urlLiteral)
        (by
          intro a i hi m
          show (NodeM.call (urlProp.At i) >>= fun e =>
            if e.IsXMLSchemaAnyURI then Pure.pure (a ++ [e.GetXMLSchemaAnyURI])
            else Pure.pure a) m = _
          rw [At_of_lt urlProp i hi]
          cases urlProp.properties[i] with
          | anyURI u => cases u <;> rfl
          | _ => rfl) [] n).trans ?_
      rw [foldl_keep_eq]
      simp [entriesOf]

theorem InPlace_GetClosed_eq (n : Node) :
    InPlace.GetClosed n
      = .ok ((entriesOf n.GetActivityStreamsClosed).filterMap closedLiteral, n) := by
  unfold InPlace.GetClosed
  rw [NodeM_bind_read]
  cases h : n.GetActivityStreamsClosed with
  | none => rfl
  | some closedProp =>
    by_cases h0 : closedProp.Len = 0
    · have : closedProp.properties = [] := List.length_eq_zero.mp h0
      simp only [h0, if_true, entriesOf, this]
      rfl
    · simp only [h0, if_false]
      refine (NodeM_range_foldlM_step closedProp _ (keepLiteral closedLiteral)
        (by
          intro a i hi m
          show (NodeM.call (closedProp.At i) >>= fun e =>
            if e.IsXMLSchemaDateTime then Pure.pure (a ++ [e.GetXMLSchemaDateTime])
            else Pure.pure a) m = _
          rw [At_of_lt closedProp i hi]
          cases closedProp.properties[i] <;> rfl) [] n).trans ?_
      rw [foldl_keep_eq]
      simp [entriesOf]

/-- A computation that returns a function of the node and the node itself
is a pure read of the getter with that value. -/
theorem readsAs_of {α : Type} {g : NodeM α} {G : Node → Except Panic α} (v : Node → α)
    (hg : ∀ n, g n = .ok (v n, n)) (hG : ∀ n, G n = .ok (v n)) : ReadsAs g G := by
  intro n
  refine ⟨?_, ⟨v n, hg n⟩, ?_⟩
  · rw [hg, hG]
    rfl
  · show NodeM.bind g _ n = _
    unfold NodeM.bind
    rw [hg]
    exact hg n

theorem InPlace_GetJSONLDId_eq (n : Node) :
    InPlace.GetJSONLDId n = .ok (GetJSONLDId n, n) := by
  unfold InPlace.GetJSONLDId GetJSONLDId
  rw [NodeM_bind_read]
  cases h : (WithJSONLDId.GetJSONLDId n : Option JSONLDIdProperty) with
  | none => rfl
  | some v => cases hv : v.IsXMLSchemaAnyURI <;> simp [hv] <;> rfl

theorem InPlace_GetInbox_eq (n : Node) : InPlace.GetInbox n = .ok (GetInbox n, n) := by
  unfold InPlace.GetInbox GetInbox
  rw [NodeM_bind_read]
  cases h : n.GetActivityStreamsInbox with
  | none => rfl
  | some v => cases hv : v.IsIRI <;> simp [hv] <;> rfl

theorem InPlace_GetOutbox_eq (n : Node) : InPlace.GetOutbox n = .ok (GetOutbox n, n) := by
  unfold InPlace.GetOutbox GetOutbox
  rw [NodeM_bind_read]
  cases h : n.GetActivityStreamsOutbox with
  | none => rfl
  | some v => cases hv : v.IsIRI <;> simp [hv] <;> rfl

theorem InPlace_GetFollowing_eq (n : Node) : InPlace.GetFollowing n = .ok (GetFollowing n, n) := by
  unfold InPlace.GetFollowing GetFollowing
  rw [NodeM_bind_read]
  cases h : n.GetActivityStreamsFollowing with
  | none => rfl
  | some v => cases hv : v.IsIRI <;> simp [hv] <;> rfl

theorem InPlace_GetFollowers_eq (n : Node) : InPlace.GetFollowers n = .ok (GetFollowers n, n) := by
  unfold InPlace.GetFollowers GetFollowers
  rw [NodeM_bind_read]
  cases h : n.GetActivityStreamsFollowers with
  | none => rfl
  | some v => cases hv : v.IsIRI <;> simp [hv] <;> rfl

theorem InPlace_GetFeatured_eq (n : Node) : InPlace.GetFeatured n = .ok (GetFeatured n, n) := by
  unfold InPlace.GetFeatured GetFeatured
  rw [NodeM_bind_read]
  cases h : n.GetTootFeatured with
  | none => rfl
  | some v => cases hv : v.IsIRI <;> simp [hv] <;> rfl

theorem InPlace_GetPublished_eq (n : Node) : InPlace.GetPublished n = .ok (GetPublished n, n) := by
  unfold InPlace.GetPublished GetPublished
  rw [NodeM_bind_read]
  cases h : n.GetActivityStreamsPublished with
  | none => rfl
  | some v => cases hv : v.IsXMLSchemaDateTime <;> simp [hv] <;> rfl

theorem InPlace_GetEndTime_eq (n : Node) : InPlace.GetEndTime n = .ok (GetEndTime n, n) := by
  unfold InPlace.GetEndTime GetEndTime
  rw [NodeM_bind_read]
  cases h : n.GetActivityStreamsEndTime with
  | none => rfl
  | some v => cases hv : v.IsXMLSchemaDateTime <;> simp [hv] <;> rfl

theorem InPlace_GetVotersCount_eq (n : Node) : InPlace.GetVotersCount n = .ok (GetVotersCount n, n) := by
  unfold InPlace.GetVotersCount GetVotersCount
  rw [NodeM_bind_read]
  cases h : n.GetTootVotersCount with
  | none => rfl
  | some v => cases hv : v.IsXMLSchemaNonNegativeInteger <;> simp [hv] <;> rfl

theorem InPlace_GetDiscoverable_eq (n : Node) : InPlace.GetDiscoverable n = .ok (GetDiscoverable n, n) := by
  unfold InPlace.GetDiscoverable GetDiscoverable
  rw [NodeM_bind_read]
  cases h : n.GetTootDiscoverable with
  | none => rfl
  | some v => cases hv : v.IsXMLSchemaBoolean <;> simp [hv] <;> rfl

/-- Claim C15.  Reads are pure: each of the nineteen getters, run call by
call on a node held by reference, returns what the getter returns and leaves
the node equal to the node before (no container created, replaced, emptied
or discarded), so running the same getter twice returns what running it once
returns. -/
theorem getters_are_pure_reads :
    ReadsAs InPlace.GetJSONLDId (fun n => .ok (GetJSONLDId n))
    ∧ ReadsAs InPlace.GetTo GetTo
    ∧ ReadsAs InPlace.GetCc GetCc
    ∧ ReadsAs InPlace.GetBcc GetBcc
    ∧ ReadsAs InPlace.GetURL GetURL
    ∧ ReadsAs InPlace.GetActorIRIs GetActorIRIs
    ∧ ReadsAs InPlace.GetObjectIRIs GetObjectIRIs
    ∧ ReadsAs InPlace.GetAttributedTo GetAttributedTo
    ∧ ReadsAs InPlace.GetInReplyTo GetInReplyTo
    ∧ ReadsAs InPlace.GetInbox (fun n => .ok (GetInbox n))
    ∧ ReadsAs InPlace.GetOutbox (fun n => .ok (GetOutbox n))
    ∧ ReadsAs InPlace.GetFollowing (fun n => .ok (GetFollowing n))
    ∧ ReadsAs InPlace.GetFollowers (fun n => .ok (GetFollowers n))
    ∧ ReadsAs InPlace.GetFeatured (fun n => .ok (GetFeatured n))
    ∧ ReadsAs InPlace.GetPublished (fun n => .ok (GetPublished n))
    ∧ ReadsAs InPlace.GetEndTime (fun n => .ok (GetEndTime n))
    ∧ ReadsAs InPlace.GetClosed GetClosed
    ∧ ReadsAs InPlace.GetVotersCount (fun n => .ok (GetVotersCount n))
    ∧ ReadsAs InPlace.GetDiscoverable (fun n => .ok (GetDiscoverable n)) :=
  ⟨readsAs_of _ InPlace_GetJSONLDId_eq (fun _ => rfl),
    readsAs_of _
      (fun n => by
        unfold InPlace.GetTo
        rw [NodeM_bind_read]
        exact InPlace_getIRIs_eq _ n)
      (fun n => getIRIs_eq n.GetActivityStreamsTo),
    readsAs_of _
      (fun n => by
        unfold InPlace.GetCc
        rw [NodeM_bind_read]
        exact InPlace_getIRIs_eq _ n)
      (fun n => getIRIs_eq n.GetActivityStreamsCc),
    readsAs_of _
      (fun n => by
        unfold InPlace.GetBcc
        rw [NodeM_bind_read]
        exact InPlace_getIRIs_eq _ n)
      (fun n => getIRIs_eq n.GetActivityStreamsBcc),
    readsAs_of _ InPlace_GetURL_eq GetURL_eq,
    readsAs_of _
      (fun n => by
        unfold InPlace.GetActorIRIs
        rw [NodeM_bind_read]
        exact InPlace_getIRIs_eq _ n)
      (fun n => getIRIs_eq n.GetActivityStreamsActor),
    readsAs_of _
      (fun n => by
        unfold InPlace.GetObjectIRIs
        rw [NodeM_bind_read]
        exact InPlace_getIRIs_eq _ n)
      (fun n => getIRIs_eq n.GetActivityStreamsObject),
    readsAs_of _
      (fun n => by
        unfold InPlace.GetAttributedTo
        rw [NodeM_bind_read]
        exact InPlace_getIRIs_eq _ n)
      (fun n => getIRIs_eq n.GetActivityStreamsAttributedTo),
    readsAs_of _
      (fun n => by
        unfold InPlace.GetInReplyTo
        rw [NodeM_bind_read]
        exact InPlace_getIRIs_eq _ n)
      (fun n => getIRIs_eq n.GetActivityStreamsInReplyTo),
    readsAs_of _ InPlace_GetInbox_eq (fun _ => rfl),
    readsAs_of _ InPlace_GetOutbox_eq (fun _ => rfl),
    readsAs_of _ InPlace_GetFollowing_eq (fun _ => rfl),
    readsAs_of _ InPlace_GetFollowers_eq (fun _ => rfl),
    readsAs_of _ InPlace_GetFeatured_eq (fun _ => rfl),
    readsAs_of _ InPlace_GetPublished_eq (fun _ => rfl),
    readsAs_of _ InPlace_GetEndTime_eq (fun _ => rfl),
    readsAs_of _ InPlace_GetClosed_eq GetClosed_eq,
    readsAs_of _ InPlace_GetVotersCount_eq (fun _ => rfl),
    readsAs_of _ InPlace_GetDiscoverable_eq (fun _ => rfl)⟩

/-- Instances of claim C15: on a node whose To container holds an embedded
node with an identity and a bare IRI, `GetTo` returns the two identifiers and
the node as it was; a computation that first attaches an empty To container
is not a read of `GetTo` on the fresh node. -/
theorem getters_are_pure_reads_witness :
    InPlace.GetTo ((Node.fresh "Note").SetActivityStreamsTo
        (some ⟨[Value.type ⟨"Person", some ⟨some "https://c.example/c1"⟩⟩,
          Value.iri (some "https://d.example/d2")]⟩))
      = .ok ([some "https://c.example/c1", some "https://d.example/d2"],
          (Node.fresh "Note").SetActivityStreamsTo
            (some ⟨[Value.type ⟨"Person", some ⟨some "https://c.example/c1"⟩⟩,
              Value.iri (some "https://d.example/d2")]⟩))
    ∧ ¬ ReadsAs
        (NodeM.write (fun n => n.SetActivityStreamsTo (some NewProperty))
          >>= fun _ => InPlace.GetTo) GetTo :=
  ⟨(getters_are_pure_reads.2.1 _).1,
    fun h => by
      obtain ⟨a, ha⟩ := (h (Node.fresh "Note")).2.1
      have h1 := congrArg (fun r => r.map (fun x => x.2.ActivityStreamsTo)) ha
      have h2 : (Except.ok (some NewProperty) : Except Panic (Option (Property Value)))
          = Except.ok none := h1
      exact absurd h2 (by decide)⟩

end ap

namespace web

/-- Claim C20, refuted as stated.  With no landing page user and a retrieval
that fails, an error handler that retrieves the instance information again
to render its page panics, and `baseHandler` writes no response at all (two
retrievals were made): not every input produces one of the three
responses. -/
theorem baseHandler_no_response_when_handler_panics :
    baseHandler (exampleModule "" (.error (.new "db down")) renderingHandler) 0
        = (.error ⟨.new "db down"⟩, 2)
    ∧ ¬ ∃ r, (baseHandler (exampleModule "" (.error (.new "db down")) renderingHandler)
        0).1 = .ok r := by
  refine ⟨by decide, ?_⟩
  rintro ⟨r, h⟩
  have h2 : (Except.error ⟨.new "db down"⟩ : Except Panic (Response String String Nat))
      = .ok r := h
  cases h2

/-- Claim C20 as amended.  The landing-page decision of `baseHandler`: a
non-empty configured user gives the 302 redirect to "/@" followed by the
lower-cased user, the processor state returned as given (no retrieval,
whatever retrieving would do to the state); an empty user and a successful
retrieval give the 200 rendering of "index.tmpl" with that instance; an
empty user and a failed retrieval hand the internal error (status 500) made
of the failure, with the retrieval function, to the web error handler, and
the outcome is that handler's: the page it writes, or its panic and no
response.  A response that is written is of the kind these three cases
decide, which exclude one another; none is written exactly when the error
handler panics. -/
theorem baseHandler_decision {σ Instance OGMeta ErrorPage : Type}
    (m : Module σ Instance OGMeta ErrorPage) (s : σ) :
    (m.GetLandingPageUser ≠ "" →
      baseHandler m s = (.ok (.Redirect 302 ("/@" ++ m.ToLower m.GetLandingPageUser)), s))
    ∧ (m.GetLandingPageUser = "" → ∀ inst s1, m.InstanceGetV1 s = (.ok inst, s1) →
      baseHandler m s
        = (.ok (.HTML 200 "index.tmpl"
            ⟨inst, m.ogBase inst, [m.distPathPrefix ++ "/index.css"]⟩), s1))
    ∧ (m.GetLandingPageUser = "" → ∀ err s1, m.InstanceGetV1 s = (.error err, s1) →
      baseHandler m s
        = ((m.WebErrorHandler ⟨500, err⟩ m.InstanceGetV1 s1).1.map Response.WebError,
            (m.WebErrorHandler ⟨500, err⟩ m.InstanceGetV1 s1).2))
    ∧ (∀ r, (baseHandler m s).1 = .ok r →
        (r.kind = .redirect ↔ m.GetLandingPageUser ≠ "")
        ∧ (r.kind = .webError ↔
            (m.GetLandingPageUser = "" ∧ ∃ err, (m.InstanceGetV1 s).1 = .error err))
        ∧ (r.kind = .index ↔
            (m.GetLandingPageUser = "" ∧ ∃ inst, (m.InstanceGetV1 s).1 = .ok inst)))
    ∧ ((∃ p, (baseHandler m s).1 = .error p) ↔
        (m.GetLandingPageUser = "" ∧ ∃ err s1, m.InstanceGetV1 s = (.error err, s1)
          ∧ ∃ p, (m.WebErrorHandler ⟨500, err⟩ m.InstanceGetV1 s1).1 = .error p)) := by
  have hred : m.GetLandingPageUser ≠ "" →
      baseHandler m s
        = (.ok (.Redirect 302 ("/@" ++ m.ToLower m.GetLandingPageUser)), s) := by
    intro h
    simp [baseHandler, h, http.StatusFound]
  have hidx : m.GetLandingPageUser = "" → ∀ inst s1, m.InstanceGetV1 s = (.ok inst, s1) →
      baseHandler m s
        = (.ok (.HTML 200 "index.tmpl"
            ⟨inst, m.ogBase inst, [m.distPathPrefix ++ "/index.css"]⟩), s1) := by
    intro h inst s1 hi
    simp [baseHandler, h, hi, http.StatusOK]
  have herr : m.GetLandingPageUser = "" → ∀ err s1, m.InstanceGetV1 s = (.error err, s1) →
      baseHandler m s
        = ((m.WebErrorHandler ⟨500, err⟩ m.InstanceGetV1 s1).1.map Response.WebError,
            (m.WebErrorHandler ⟨500, err⟩ m.InstanceGetV1 s1).2) := by
    intro h err s1 he
    simp only [baseHandler, h, he, gtserror.NewErrorInternalError,
      http.StatusInternalServerError, ne_eq, not_true_eq_false, if_false]
    rcases hw : m.WebErrorHandler ⟨500, err⟩ m.InstanceGetV1 s1 with ⟨o, s2⟩
    cases o <;> rfl
  obtain ⟨o, s1, hi⟩ : ∃ o s1, m.InstanceGetV1 s = (o, s1) := ⟨_, _, rfl⟩
  refine ⟨hred, hidx, herr, ?_, ?_⟩
  · intro r hr
    by_cases h : m.GetLandingPageUser = ""
    · cases o with
      | error err =>
        rw [herr h err s1 hi] at hr
        cases hw : (m.WebErrorHandler ⟨500, err⟩ m.InstanceGetV1 s1).1 with
        | error p =>
          rw [hw] at hr
          simp [Except.map] at hr
        | ok page =>
          rw [hw] at hr
          simp only [Except.map, Except.ok.injEq] at hr
          subst hr
          simp [Response.kind, h, hi]
      | ok inst =>
        rw [hidx h inst s1 hi] at hr
        simp only [Except.ok.injEq] at hr
        subst hr
        simp [Response.kind, h, hi]
    · rw [hred h] at hr
      simp only [Except.ok.injEq] at hr
      subst hr
      simp [Response.kind, h]
  · by_cases h : m.GetLandingPageUser = ""
    · cases o with
      | error err =>
        rw [herr h err s1 hi]
        constructor
        · rintro ⟨p, hp⟩
          refine ⟨h, err, s1, hi, ?_⟩
          cases hw : (m.WebErrorHandler ⟨500, err⟩ m.InstanceGetV1 s1).1 with
          | error q => exact ⟨q, rfl⟩
          | ok page =>
            rw [hw] at hp
            simp [Except.map] at hp
        · rintro ⟨_, e, t, he, q, hq⟩
          rw [hi] at he
          cases he
          exact ⟨q, by rw [hq]; rfl⟩
      | ok inst =>
        rw [hidx h inst s1 hi]
        constructor
        · rintro ⟨p, hp⟩
          cases hp
        · rintro ⟨_, e, t, he, _⟩
          rw [hi] at he
          cases he
    · rw [hred h]
      constructor
      · rintro ⟨p, hp⟩
        cases hp
      · rintro ⟨h2, _⟩
        exact absurd h2 h

/-- Instances of claim C20 as amended: the user "Admin" is redirected to
"/@admin" and the count of retrievals stays 0; with no user, a successful
retrieval gives the index page, one retrieval made; a failed one gives the
page of the error handler for status 500 when that handler answers, and no
response when it panics. -/
theorem baseHandler_decision_witness :
    baseHandler (exampleModule "Admin" (.ok "inst") renderingHandler) 0
        = (.ok (.Redirect 302 "/@admin"), 0)
    ∧ baseHandler (exampleModule "" (.ok "inst") renderingHandler) 0
        = (.ok (.HTML 200 "index.tmpl" ⟨"inst", "og:inst", ["/assets/dist/index.css"]⟩), 1)
    ∧ baseHandler (exampleModule "" (.error (.new "db down")) answeringHandler) 0
        = (.ok (.WebError 500), 1)
    ∧ (∃ p, (baseHandler (exampleModule "" (.error (.new "db down")) renderingHandler)
        0).1 = .error p) :=
  ⟨(baseHandler_decision (exampleModule "Admin" (.ok "inst") renderingHandler) 0).1
      (by decide),
    (baseHandler_decision (exampleModule "" (.ok "inst") renderingHandler) 0).2.1
      rfl _ _ rfl,
    (baseHandler_decision (exampleModule "" (.error (.new "db down")) answeringHandler)
      0).2.2.1 rfl _ _ rfl,
    (baseHandler_decision (exampleModule "" (.error (.new "db down")) renderingHandler)
      0).2.2.2.2.mpr ⟨rfl, _, _, rfl, _, rfl⟩⟩

end web
